import Mathlib

/-!
A verification development for the "sentence cleaning" game core: the
session/game state machine, the landfill (review queue), the history log and
the per-session diagnosis.  The definitions below are a shallow embedding of
the application component (game handlers, landfill and history operations,
session orchestration, diagnosis computation) and of the pure diagnosis
feedback function from the AI-service module.  Rendering, audio and the
in-flight message string are presentation effects with no bearing on the
state properties proved here and are omitted; the external sentence
generator and the static sentence pool are passed in as parameters.
Timestamps (`Date.now()`) are passed explicitly as a `now : Nat` argument.
-/

namespace SentenceCleaner

/-- `Difficulty` from the type declarations. -/
inductive Difficulty
  | beginner
  | intermediate
  | advanced
deriving DecidableEq

/-- The level selector of the session: a difficulty tier or the special
landfill review pseudo-tier (`Difficulty | 'landfill'` in the component). -/
inductive SessionLevel
  | diff : Difficulty → SessionLevel
  | landfill
deriving DecidableEq

/-- `GameStep` enumeration from the type declarations. -/
inductive GameStep
  | LOADING
  | HEAD_NOUN
  | QUESTION
  | MODIFIER_RANGE
  | MODIFIER_TYPE
  | FIND_VERB
  | RESULT
  | DIAGNOSIS
deriving DecidableEq

/-- `TutorialStep` enumeration from the type declarations. -/
inductive TutorialStep
  | WELCOME
  | FIND_NOUN
  | QUESTION_POPUP
  | SELECT_RANGE
  | SELECT_CODE
  | FIND_VERB
  | COMPLETE
  | OFF
deriving DecidableEq

/-- `Modifier` interface: a contiguous token span with a type code. -/
structure Modifier where
  id : String
  startIndex : Nat
  endIndex : Nat
  typeCode : Nat
deriving DecidableEq

/-- `SentenceData` interface. -/
structure SentenceData where
  id : String
  tokens : List String
  headNounIndex : Nat
  mainVerbIndex : Nat
  modifiers : List Modifier
  subjectType : Nat
  translation : String
  difficulty : Difficulty
deriving DecidableEq

/-- The mistake categories of a history record. -/
inductive MistakeType
  | range
  | code
  | noun
  | verb
deriving DecidableEq

/-- One entry of `UserProgress.history`. -/
structure HistoryRecord where
  sentenceId : String
  correct : Bool
  mistakeType : Option MistakeType
  modifierCode : Option Nat
  timestamp : Nat
deriving DecidableEq

/-- `LandfillItem` interface. -/
structure LandfillItem where
  sentenceId : String
  wrongCode : Option Nat
  wrongCount : Nat
  consecutiveCorrect : Nat
  lastAttempt : Nat
deriving DecidableEq

/-- The landfill map `Record<string, LandfillItem>`, embedded as an
association list keyed by sentence identifier (keys unique by construction:
updates replace in place, new keys are appended, as JS object spread does). -/
abbrev Landfill := List (String × LandfillItem)

/-- Key lookup in the landfill map (`prev.landfill[id]`). -/
def lfLookup : Landfill → String → Option LandfillItem
  | [], _ => none
  | p :: rest, id => if p.1 = id then some p.2 else lfLookup rest id

/-- Key upsert (`{ ...prev.landfill, [id]: item }`): an existing key keeps
its position, a new key is appended. -/
def lfSet : Landfill → String → LandfillItem → Landfill
  | [], id, item => [(id, item)]
  | p :: rest, id, item =>
      if p.1 = id then (id, item) :: rest else p :: lfSet rest id item

/-- Key removal (`delete newLandfill[id]`). -/
def lfErase : Landfill → String → Landfill
  | [], _ => []
  | p :: rest, id => if p.1 = id then lfErase rest id else p :: lfErase rest id

/-- The wrong-attempt count recorded for a sentence, 0 when absent. -/
def lfWrongCount (lf : Landfill) (id : String) : Nat :=
  match lfLookup lf id with
  | some item => item.wrongCount
  | none => 0

/-- `UserProgress` interface. -/
structure UserProgress where
  exp : Nat
  combo : Nat
  landfill : Landfill
  history : List HistoryRecord
  tutorialCompleted : Bool
  unlockedLevels : List Difficulty
deriving DecidableEq

/-- The initial `userProgress` state of the component. -/
def initialUserProgress : UserProgress :=
  { exp := 0
    combo := 0
    landfill := []
    history := []
    tutorialCompleted := false
    unlockedLevels := [.beginner, .intermediate, .advanced] }

/-- The per-sentence mistake counters (`useState({ range: 0, code: 0 })`). -/
structure Mistakes where
  range : Nat
  code : Nat
deriving DecidableEq

/-- `DiagnosisStats` interface.  Accuracy and the error rates are rational
numbers (the JS number arithmetic used on them here is exact). -/
structure DiagnosisStats where
  totalQuestions : Nat
  accuracy : ℚ
  weakestModifierCode : Option Nat
  strongestModifierCode : Option Nat
  rangeErrorRate : ℚ
  codeErrorRate : ℚ
  feedback : String
deriving DecidableEq

/-- The game-relevant state of the component: the `useState` fields that
participate in the session/game logic. -/
structure AppState where
  isPlaying : Bool
  currentLevel : SessionLevel
  sessionSentences : List SentenceData
  currentSentenceIdx : Nat
  step : GameStep
  currentModIndex : Nat
  cleanedModifiers : List Nat
  selectionStart : Option Nat
  selectionEnd : Option Nat
  mistakes : Mistakes
  tutorialStep : TutorialStep
  userProgress : UserProgress
  diagnosisStats : Option DiagnosisStats
deriving DecidableEq

/-- `currentSentence = sessionSentences[currentSentenceIdx]`. -/
def currentSentence (s : AppState) : Option SentenceData :=
  s.sessionSentences.get? s.currentSentenceIdx

/-- `activeModifier = currentSentence?.modifiers[currentModIndex]`. -/
def activeModifier (s : AppState) : Option Modifier :=
  match currentSentence s with
  | some sent => sent.modifiers.get? s.currentModIndex
  | none => none

/-- `addToLandfill`: upsert the current sentence into the landfill,
incrementing `wrongCount`, zeroing `consecutiveCorrect` and stamping
`lastAttempt`. -/
def addToLandfill (now : Nat) (s : AppState) : AppState :=
  match currentSentence s with
  | none => s
  | some sent =>
      let existing := (lfLookup s.userProgress.landfill sent.id).getD
        { sentenceId := sent.id
          wrongCode := none
          wrongCount := 0
          consecutiveCorrect := 0
          lastAttempt := 0 }
      { s with userProgress := { s.userProgress with
          landfill := lfSet s.userProgress.landfill sent.id
            { existing with
                wrongCount := existing.wrongCount + 1
                consecutiveCorrect := 0
                lastAttempt := now } } }

/-- `handleSuccessInLandfill`: in landfill mode, increment the current
sentence's consecutive-correct count, deleting the entry at 2. -/
def handleSuccessInLandfill (s : AppState) : AppState :=
  if s.currentLevel ≠ SessionLevel.landfill then s else
  match currentSentence s with
  | none => s
  | some sent =>
      match lfLookup s.userProgress.landfill sent.id with
      | none => s
      | some existing =>
          let newConsecutive := existing.consecutiveCorrect + 1
          if newConsecutive ≥ 2 then
            { s with userProgress := { s.userProgress with
                landfill := lfErase s.userProgress.landfill sent.id } }
          else
            { s with userProgress := { s.userProgress with
                landfill := lfSet s.userProgress.landfill sent.id
                  { existing with consecutiveCorrect := newConsecutive } } }

/-- `recordHistory`: append one history record for the current sentence. -/
def recordHistory (now : Nat) (correct : Bool) (type : MistakeType)
    (code : Option Nat) (s : AppState) : AppState :=
  match currentSentence s with
  | none => s
  | some sent =>
      { s with userProgress := { s.userProgress with
          history := s.userProgress.history ++
            [{ sentenceId := sent.id
               correct := correct
               mistakeType := if correct then none else some type
               modifierCode := code
               timestamp := now }] } }

/-- `setUserProgress(p => ({ ...p, combo: 0 }))`. -/
def resetCombo (s : AppState) : AppState :=
  { s with userProgress := { s.userProgress with combo := 0 } }

/-- The shared wrong-range branch of `handleTokenClick`: clear the partial
selection, reset the combo, bump the range-mistake counter (committing to
the landfill at `newR >= 3`) and record an incorrect range attempt tagged
with the active modifier's type code. -/
def rangeMissUpdate (now : Nat) (s : AppState) : AppState :=
  let s := { s with selectionStart := none, selectionEnd := none }
  let s := resetCombo s
  let newR := s.mistakes.range + 1
  let s := if newR ≥ 3 then addToLandfill now s else s
  let s := { s with mistakes := { s.mistakes with range := newR } }
  recordHistory now false .range ((activeModifier s).map (·.typeCode)) s

/-- `handleTokenClick`: the token-tap handler, dispatching on the current
game step (head-noun answer, two-click range answer, main-verb answer). -/
def handleTokenClick (now : Nat) (index : Nat) (s : AppState) : AppState :=
  match currentSentence s with
  | none => s
  | some sent =>
      if s.tutorialStep = TutorialStep.FIND_NOUN ∧ index ≠ sent.headNounIndex then s else
      let s := if s.tutorialStep = TutorialStep.FIND_NOUN ∧ index = sent.headNounIndex
        then { s with tutorialStep := TutorialStep.QUESTION_POPUP } else s
      if s.tutorialStep = TutorialStep.FIND_VERB ∧ index ≠ sent.mainVerbIndex then s else
      if s.step = GameStep.HEAD_NOUN then
        if index = sent.headNounIndex then
          recordHistory now true .noun none { s with step := GameStep.QUESTION }
        else
          recordHistory now false .noun none (resetCombo s)
      else if s.step = GameStep.MODIFIER_RANGE then
        match s.selectionStart with
        | none => { s with selectionStart := some index }
        | some selStart =>
            let startIdx := min selStart index
            let endIdx := max selStart index
            let s := { s with selectionEnd := some index }
            match activeModifier s with
            | some m =>
                if startIdx = m.startIndex ∧ endIdx = m.endIndex then
                  { s with step := GameStep.MODIFIER_TYPE
                           tutorialStep :=
                             if s.tutorialStep = TutorialStep.SELECT_RANGE
                             then TutorialStep.SELECT_CODE else s.tutorialStep }
                else rangeMissUpdate now s
            | none => rangeMissUpdate now s
      else if s.step = GameStep.FIND_VERB then
        if index = sent.mainVerbIndex then
          let s := recordHistory now true .verb none s
          let s := if s.tutorialStep = TutorialStep.FIND_VERB
            then { s with tutorialStep := TutorialStep.COMPLETE } else s
          let s := { s with step := GameStep.RESULT }
          let s := handleSuccessInLandfill s
          { s with userProgress := { s.userProgress with
              exp := s.userProgress.exp + 10 + s.userProgress.combo * 2
              combo := s.userProgress.combo + 1 } }
        else
          recordHistory now false .verb none (resetCombo s)
      else s

/-- The `QUESTION` auto-transition effect: after the popup delay, move to
`MODIFIER_RANGE`. -/
def questionAutoAdvance (s : AppState) : AppState :=
  if s.step = GameStep.QUESTION then
    { s with step := GameStep.MODIFIER_RANGE
             tutorialStep :=
               if s.tutorialStep = TutorialStep.QUESTION_POPUP
               then TutorialStep.SELECT_RANGE else s.tutorialStep }
  else s

/-- `handleKeypadSelect`: the modifier-type-code answer handler. -/
def handleKeypadSelect (now : Nat) (code : Nat) (s : AppState) : AppState :=
  match currentSentence s, activeModifier s with
  | some sent, some m =>
      if s.tutorialStep = TutorialStep.SELECT_CODE ∧ code ≠ m.typeCode then s else
      if code = m.typeCode then
        let s := { s with
          cleanedModifiers := s.cleanedModifiers ++ [s.currentModIndex]
          selectionStart := none
          selectionEnd := none
          mistakes := { s.mistakes with code := 0 } }
        let s := recordHistory now true .code (some code) s
        if s.currentModIndex < sent.modifiers.length - 1 then
          { s with currentModIndex := s.currentModIndex + 1
                   step := GameStep.MODIFIER_RANGE }
        else
          { s with step := GameStep.FIND_VERB
                   tutorialStep :=
                     if s.tutorialStep = TutorialStep.SELECT_CODE
                     then TutorialStep.FIND_VERB else s.tutorialStep }
      else
        let s := resetCombo s
        let newC := s.mistakes.code + 1
        let s := if newC ≥ 2 then addToLandfill now s else s
        let s := { s with mistakes := { s.mistakes with code := newC } }
        recordHistory now false .code (some m.typeCode) s
  | _, _ => s

/-- `resetSentenceState`: the per-sentence transient-state reset. -/
def resetSentenceState (s : AppState) : AppState :=
  { s with step := GameStep.HEAD_NOUN
           currentModIndex := 0
           cleanedModifiers := []
           selectionStart := none
           selectionEnd := none
           mistakes := { range := 0, code := 0 }
           tutorialStep :=
             if s.tutorialStep ≠ TutorialStep.OFF
             then TutorialStep.FIND_NOUN else s.tutorialStep }

/-- `startLevel`: session start.  The static pool (`MOCK_SENTENCES`, a
constants module outside these sources) and the asynchronous generator
result (`generateSessionSentences`) are passed in as `mock` and `gen`. -/
def startLevel (mock gen : List SentenceData) (level : SessionLevel)
    (s : AppState) : AppState :=
  let s := { s with currentLevel := level }
  let queue :=
    match level with
    | SessionLevel.landfill =>
        let landfillIds := s.userProgress.landfill.map (·.1)
        let q := mock.filter (fun sd => landfillIds.contains sd.id)
        if q.length < 5 then gen else q
    | SessionLevel.diff d =>
        if gen.length = 0 then mock.filter (fun sd => sd.difficulty == d) else gen
  resetSentenceState
    { s with sessionSentences := queue
             currentSentenceIdx := 0
             isPlaying := true }

/-- JS truthiness of the optional `modifierCode` field (`if (h.modifierCode)`):
present and nonzero. -/
def truthyCode : Option Nat → Bool
  | some n => n != 0
  | none => false

/-- The per-code mistake tally (`codeCounts[code]`) over the incorrect,
code-tagged session records. -/
def codeCount (incorrects : List HistoryRecord) (c : Nat) : Nat :=
  (incorrects.filter (fun h => h.modifierCode == some c)).length

/-- The largest modifier code occurring in the records (a bound for the key
range below). -/
def maxCode (incorrects : List HistoryRecord) : Nat :=
  incorrects.foldl
    (fun m h => match h.modifierCode with | some c => max m c | none => m) 0

/-- The keys of `codeCounts` in iteration order: `Object.entries` visits
integer-like keys in ascending numeric order, so the keys with a nonzero
tally are listed ascending. -/
def presentCodes (incorrects : List HistoryRecord) : List Nat :=
  (List.range (maxCode incorrects + 1)).filter
    (fun c => 0 < codeCount incorrects c)

/-- The weakest-code selection loop of `calculateDiagnosis`: keep the first
key whose tally strictly exceeds the running maximum. -/
def weakestCodeOf (incorrects : List HistoryRecord) : Option Nat :=
  ((presentCodes incorrects).foldl
    (fun acc c =>
      if codeCount incorrects c > acc.1 then (codeCount incorrects c, some c) else acc)
    (0, (none : Option Nat))).2

/-- The congratulatory feedback string of `analyzeDiagnosis` (returned when
the session has no mistakes). -/
def masteryFeedback : String :=
  "완벽합니다! 다음 레벨로 넘어갈 준비가 되었습니다."

/-- The range-practice feedback string of `analyzeDiagnosis`. -/
def rangeFeedback : String :=
  "수식어의 범위(어디서부터 어디까지인지)를 찾는 연습이 더 필요해 보입니다."

/-- The type-code-practice feedback string of `analyzeDiagnosis`. -/
def codeFeedback : String :=
  "수식어의 종류(코드 번호)를 헷갈려하고 있습니다. 힌트 기능을 적극 활용해보세요."

/-- `analyzeDiagnosis` from the AI-service module: a pure function of the
history and the session identifier set. -/
def analyzeDiagnosis (history : List HistoryRecord)
    (currentSessionIds : List String) : String :=
  let sessionMistakes := history.filter
    (fun h => currentSessionIds.contains h.sentenceId && !h.correct)
  if sessionMistakes.length = 0 then masteryFeedback
  else
    let rangeErrors :=
      (sessionMistakes.filter (fun h => h.mistakeType == some MistakeType.range)).length
    let codeErrors :=
      (sessionMistakes.filter (fun h => h.mistakeType == some MistakeType.code)).length
    if rangeErrors > codeErrors then rangeFeedback else codeFeedback

/-- `calculateDiagnosis`: aggregate the session's history slice into the
diagnosis report and move to the `DIAGNOSIS` step. -/
def calculateDiagnosis (s : AppState) : AppState :=
  let sessionIds := s.sessionSentences.map (·.id)
  let sessionHistory := s.userProgress.history.filter
    (fun h => sessionIds.contains h.sentenceId)
  let totalAttempts := sessionHistory.length
  let corrects := (sessionHistory.filter (·.correct)).length
  let incorrects := sessionHistory.filter
    (fun h => !h.correct && truthyCode h.modifierCode)
  let aiFeedback := analyzeDiagnosis s.userProgress.history sessionIds
  { s with
      diagnosisStats := some
        { totalQuestions := s.sessionSentences.length
          accuracy :=
            if totalAttempts > 0
            then ((corrects : ℚ) / (totalAttempts : ℚ)) * 100 else 0
          weakestModifierCode := weakestCodeOf incorrects
          strongestModifierCode := none
          rangeErrorRate := 0
          codeErrorRate := 0
          feedback := aiFeedback }
      step := GameStep.DIAGNOSIS }

/-- `nextSentence`: advance the session cursor, or trigger the diagnosis when
the queue is exhausted. -/
def nextSentence (s : AppState) : AppState :=
  if s.currentSentenceIdx < s.sessionSentences.length - 1 then
    resetSentenceState { s with currentSentenceIdx := s.currentSentenceIdx + 1 }
  else calculateDiagnosis s

/-- The token-view click guard of the sentence renderer: a token inside an
already-cleaned modifier span is not clickable. -/
def isCleanedToken (sent : SentenceData) (cleaned : List Nat) (index : Nat) : Bool :=
  cleaned.any (fun modIdx =>
    match sent.modifiers.get? modIdx with
    | some m => decide (m.startIndex ≤ index) && decide (index ≤ m.endIndex)
    | none => false)

/-- Whether a token click at `index` reaches `handleTokenClick`: the renderer
invokes the handler only for non-cleaned tokens outside the `RESULT` step
(`!isCleaned && step !== GameStep.RESULT && onTokenClick(index)`). -/
def tokenReachesHandler (s : AppState) (index : Nat) : Bool :=
  match currentSentence s with
  | some sent =>
      !isCleanedToken sent s.cleanedModifiers index && s.step != GameStep.RESULT
  | none => false

/-- The discrete user-input and timer events that drive the state machine. -/
inductive Event
  | tokenClick (index : Nat)
  | keypadSelect (code : Nat)
  | questionAdvance
  | nextClick
deriving DecidableEq

/-- One event step of the machine.  Token clicks pass through the renderer's
click guard.  Modelled from the spec: the keypad (the `ToolsPanel` component,
whose source is not among these files) delivers a type-code answer only
while the machine is in the `MODIFIER_TYPE` input state (section 4.1 of the
design), and the next-sentence button is shown only on the `RESULT` screen. -/
def stepEvent (now : Nat) (e : Event) (s : AppState) : AppState :=
  match e with
  | .tokenClick i =>
      if tokenReachesHandler s i then handleTokenClick now i s else s
  | .keypadSelect c =>
      if s.step = GameStep.MODIFIER_TYPE then handleKeypadSelect now c s else s
  | .questionAdvance => questionAutoAdvance s
  | .nextClick => if s.step = GameStep.RESULT then nextSentence s else s

/-- Run a list of events in order. -/
def runEvents (now : Nat) (events : List Event) (s : AppState) : AppState :=
  events.foldl (fun st e => stepEvent now e st) s

/-- A completed two-click range answer whose normalized span matches the
active modifier's span exactly. -/
def isCorrectRangeMatch (s : AppState) (i : Nat) : Bool :=
  s.step == GameStep.MODIFIER_RANGE &&
  (match s.selectionStart, activeModifier s with
   | some a, some m =>
       decide (min a i = m.startIndex) && decide (max a i = m.endIndex)
   | _, _ => false)

/-- Whether an event is a token click completing a correct range match. -/
def isRangeMatchEvent (s : AppState) (e : Event) : Bool :=
  match e with
  | .tokenClick i => tokenReachesHandler s i && isCorrectRangeMatch s i
  | _ => false

/-- The user-facing answer attempts: a token-index answer in `HEAD_NOUN`, a
completed (second-click) range answer in `MODIFIER_RANGE`, a type-code
answer in `MODIFIER_TYPE`, a token-index answer in `FIND_VERB`. -/
def isAnswerAttempt (s : AppState) (e : Event) : Bool :=
  match e with
  | .tokenClick i =>
      tokenReachesHandler s i &&
      (s.step == GameStep.HEAD_NOUN ||
       (s.step == GameStep.MODIFIER_RANGE && s.selectionStart.isSome) ||
       s.step == GameStep.FIND_VERB)
  | .keypadSelect _ =>
      s.step == GameStep.MODIFIER_TYPE && (activeModifier s).isSome
  | _ => false

/-- An incorrect answer attempt: wrong head-noun token, completed range
answer that misses the active span, wrong type code, or wrong main-verb
token. -/
def isIncorrectAnswer (s : AppState) (e : Event) : Bool :=
  match e with
  | .tokenClick i =>
      tokenReachesHandler s i &&
      ((s.step == GameStep.HEAD_NOUN &&
          (match currentSentence s with
           | some sent => i != sent.headNounIndex
           | none => false)) ||
       (s.step == GameStep.MODIFIER_RANGE && s.selectionStart.isSome &&
          !isCorrectRangeMatch s i) ||
       (s.step == GameStep.FIND_VERB &&
          (match currentSentence s with
           | some sent => i != sent.mainVerbIndex
           | none => false)))
  | .keypadSelect c =>
      s.step == GameStep.MODIFIER_TYPE &&
      (match activeModifier s with
       | some m => c != m.typeCode
       | none => false)
  | _ => false

/-- A correct main-verb answer in the `FIND_VERB` state. -/
def isCorrectVerbAnswer (s : AppState) (e : Event) : Bool :=
  match e, currentSentence s with
  | .tokenClick i, some sent =>
      tokenReachesHandler s i && s.step == GameStep.FIND_VERB &&
      i == sent.mainVerbIndex
  | _, _ => false

/-- A completed range answer that misses the active modifier's span. -/
def isRangeMiss (s : AppState) (e : Event) : Bool :=
  match e with
  | .tokenClick i =>
      tokenReachesHandler s i && s.step == GameStep.MODIFIER_RANGE &&
      s.selectionStart.isSome && !isCorrectRangeMatch s i
  | _ => false

/-- A wrong type-code answer in the `MODIFIER_TYPE` state. -/
def isCodeMiss (s : AppState) (e : Event) : Bool :=
  match e with
  | .keypadSelect c =>
      s.step == GameStep.MODIFIER_TYPE &&
      (match activeModifier s with
       | some m => c != m.typeCode
       | none => false)
  | _ => false

/-! Concrete fixtures used by the scenario theorems and counterexamples: a
one-modifier beginner sentence ("The dog with fleas barks", head noun at 0,
modifier span [1,2], type code 3, main verb at 3 — indices shaped like the
generator's output). -/

/-- A concrete modifier spanning tokens 1-2 with type code 3. -/
def exModifier : Modifier :=
  { id := "mod-0-0", startIndex := 1, endIndex := 2, typeCode := 3 }

/-- A concrete one-modifier sentence. -/
def exSentence : SentenceData :=
  { id := "s1"
    tokens := ["dog", "with", "fleas", "barks"]
    headNounIndex := 0
    mainVerbIndex := 3
    modifiers := [exModifier]
    subjectType := 1
    translation := "개가 짖는다"
    difficulty := .beginner }

/-- A second concrete sentence, not in any landfill. -/
def exSentence2 : SentenceData :=
  { id := "g1"
    tokens := ["cats", "sleep"]
    headNounIndex := 0
    mainVerbIndex := 1
    modifiers := []
    subjectType := 2
    translation := "고양이는 잔다"
    difficulty := .beginner }

/-- A landfill-review session state on `exSentence` (queued twice so the
sentence is passed through twice), with an existing landfill entry for it
(`wrongCount` 1, `consecutiveCorrect` 0), tutorial off. -/
def lfReviewState : AppState :=
  { isPlaying := true
    currentLevel := SessionLevel.landfill
    sessionSentences := [exSentence, exSentence]
    currentSentenceIdx := 0
    step := GameStep.HEAD_NOUN
    currentModIndex := 0
    cleanedModifiers := []
    selectionStart := none
    selectionEnd := none
    mistakes := { range := 0, code := 0 }
    tutorialStep := TutorialStep.OFF
    userProgress := { initialUserProgress with
      landfill := [("s1",
        { sentenceId := "s1", wrongCode := none, wrongCount := 1
          consecutiveCorrect := 0, lastAttempt := 0 })] }
    diagnosisStats := none }

/-- The event sequence of one fully-correct pass through `exSentence`:
correct head noun, the question auto-advance, the correct range (clicks on
tokens 1 and 2), the correct type code 3, the correct main verb. -/
def cleanPassEvents : List Event :=
  [.tokenClick 0, .questionAdvance, .tokenClick 1, .tokenClick 2,
   .keypadSelect 3, .tokenClick 3]

/-- One pass through `exSentence` containing a single sub-threshold range
mistake (the span (0,0) is answered first) before finishing correctly. -/
def dirtyPassEvents : List Event :=
  [.tokenClick 0, .questionAdvance, .tokenClick 0, .tokenClick 0,
   .tokenClick 1, .tokenClick 2, .keypadSelect 3, .tokenClick 3]

/-- A state mid-pass on `exSentence` where three range misses have already
occurred (`mistakes.range = 3`, so one landfill commit has fired and the
entry holds `wrongCount = 1`), with a pending first selection click on
token 0. -/
def afterThreeRangeMissesState : AppState :=
  { lfReviewState with
    currentLevel := SessionLevel.diff Difficulty.beginner
    step := GameStep.MODIFIER_RANGE
    selectionStart := some 0
    mistakes := { range := 3, code := 0 } }

/-- A non-review (beginner) session state on `exSentence` in the `FIND_VERB`
step, with all modifiers cleaned and an existing landfill entry for the
sentence. -/
def beginnerFindVerbState : AppState :=
  { lfReviewState with
    currentLevel := SessionLevel.diff Difficulty.beginner
    step := GameStep.FIND_VERB
    cleanedModifiers := [0] }

/-- The landfill-review variant of `beginnerFindVerbState`. -/
def landfillFindVerbState : AppState :=
  { beginnerFindVerbState with currentLevel := SessionLevel.landfill }

/-- A finished session whose history holds a single incorrect main-verb
attempt (no code-tagged mistakes). -/
def verbMissSessionState : AppState :=
  { lfReviewState with
    sessionSentences := [exSentence]
    step := GameStep.RESULT
    userProgress := { initialUserProgress with
      history := [{ sentenceId := "s1", correct := false
                    mistakeType := some MistakeType.verb
                    modifierCode := none, timestamp := 0 }] } }

/-- A finished session with an empty history slice. -/
def emptySessionState : AppState :=
  { lfReviewState with
    sessionSentences := [exSentence]
    step := GameStep.RESULT
    userProgress := initialUserProgress }

/-- A state on `exSentence` in `MODIFIER_RANGE` with a pending first click on
token 1 (so a click on token 2 completes the correct span [1,2]). -/
def rangeMatchState : AppState :=
  { lfReviewState with
    step := GameStep.MODIFIER_RANGE
    selectionStart := some 1 }

/-- A one-sentence static pool containing the landfilled sentence. -/
def mockPool : List SentenceData := [exSentence]

/-- A generated batch not containing the landfilled sentence. -/
def genBatch : List SentenceData := [exSentence2]

/-- The landfill entry produced by a commit for `id` stamped `now`: the
previous entry (or the fresh default) with `wrongCount` incremented,
`consecutiveCorrect` zeroed and `lastAttempt` restamped — exactly the upsert
`addToLandfill` performs. -/
def commitItem (before : Landfill) (id : String) (now : Nat) : LandfillItem :=
  let existing := (lfLookup before id).getD
    { sentenceId := id, wrongCode := none, wrongCount := 0
      consecutiveCorrect := 0, lastAttempt := 0 }
  { existing with
      wrongCount := existing.wrongCount + 1
      consecutiveCorrect := 0
      lastAttempt := now }

/-- A landfill commit for `id` stamped `now` occurred between the two maps,
observed through lookup. -/
def commitObserved (before after : Landfill) (id : String) (now : Nat) : Prop :=
  lfLookup after id = some (commitItem before id now)

/-- The history records counted by the diagnosis: those whose sentence
identifier belongs to the session's identifier set. -/
def sessionAttempts (s : AppState) : List HistoryRecord :=
  s.userProgress.history.filter
    (fun h => (s.sessionSentences.map (·.id)).contains h.sentenceId)

/-- The accuracy field of the diagnosis report computed from a state. -/
def diagnosisAccuracy (s : AppState) : ℚ :=
  match (calculateDiagnosis s).diagnosisStats with
  | some st => st.accuracy
  | none => 0


/-- The incorrect, code-tagged records of the session (the `incorrects` list
of `calculateDiagnosis`). -/
def sessionIncorrects (s : AppState) : List HistoryRecord :=
  (sessionAttempts s).filter (fun h => !h.correct && truthyCode h.modifierCode)

/-- The weakest-modifier field of the diagnosis report computed from a
state. -/
def diagnosisWeakestCode (s : AppState) : Option Nat :=
  match (calculateDiagnosis s).diagnosisStats with
  | some st => st.weakestModifierCode
  | none => none

/-- The feedback field of the diagnosis report computed from a state. -/
def diagnosisFeedback (s : AppState) : String :=
  match (calculateDiagnosis s).diagnosisStats with
  | some st => st.feedback
  | none => ""

/-! ### Basic lemmas about the landfill map and the state operations -/

theorem lfLookup_lfSet_self (lf : Landfill) (id : String) (item : LandfillItem) :
    lfLookup (lfSet lf id item) id = some item := by
  induction lf with
  | nil => simp [lfSet, lfLookup]
  | cons p rest ih =>
      by_cases h : p.1 = id <;> simp [lfSet, lfLookup, h, ih]

theorem lfLookup_lfErase_self (lf : Landfill) (id : String) :
    lfLookup (lfErase lf id) id = none := by
  induction lf with
  | nil => simp [lfErase, lfLookup]
  | cons p rest ih =>
      by_cases h : p.1 = id <;> simp [lfErase, lfLookup, h, ih]

theorem currentSentence_update (s : AppState) (f : AppState → AppState)
    (h1 : (f s).sessionSentences = s.sessionSentences)
    (h2 : (f s).currentSentenceIdx = s.currentSentenceIdx) :
    currentSentence (f s) = currentSentence s := by
  unfold currentSentence
  rw [h1, h2]

@[simp] theorem combo_recordHistory (now : Nat) (c : Bool) (t : MistakeType)
    (cd : Option Nat) (s : AppState) :
    (recordHistory now c t cd s).userProgress.combo = s.userProgress.combo := by
  unfold recordHistory; split <;> rfl

@[simp] theorem exp_recordHistory (now : Nat) (c : Bool) (t : MistakeType)
    (cd : Option Nat) (s : AppState) :
    (recordHistory now c t cd s).userProgress.exp = s.userProgress.exp := by
  unfold recordHistory; split <;> rfl

@[simp] theorem landfill_recordHistory (now : Nat) (c : Bool) (t : MistakeType)
    (cd : Option Nat) (s : AppState) :
    (recordHistory now c t cd s).userProgress.landfill = s.userProgress.landfill := by
  unfold recordHistory; split <;> rfl

@[simp] theorem combo_addToLandfill (now : Nat) (s : AppState) :
    (addToLandfill now s).userProgress.combo = s.userProgress.combo := by
  unfold addToLandfill; split <;> rfl

@[simp] theorem exp_addToLandfill (now : Nat) (s : AppState) :
    (addToLandfill now s).userProgress.exp = s.userProgress.exp := by
  unfold addToLandfill; split <;> rfl

@[simp] theorem history_addToLandfill (now : Nat) (s : AppState) :
    (addToLandfill now s).userProgress.history = s.userProgress.history := by
  unfold addToLandfill; split <;> rfl

@[simp] theorem combo_handleSuccessInLandfill (s : AppState) :
    (handleSuccessInLandfill s).userProgress.combo = s.userProgress.combo := by
  unfold handleSuccessInLandfill
  split
  · rfl
  · split
    · rfl
    · split
      · rfl
      · dsimp only
        split <;> rfl

@[simp] theorem exp_handleSuccessInLandfill (s : AppState) :
    (handleSuccessInLandfill s).userProgress.exp = s.userProgress.exp := by
  unfold handleSuccessInLandfill
  split
  · rfl
  · split
    · rfl
    · split
      · rfl
      · dsimp only
        split <;> rfl

@[simp] theorem history_handleSuccessInLandfill (s : AppState) :
    (handleSuccessInLandfill s).userProgress.history = s.userProgress.history := by
  unfold handleSuccessInLandfill
  split
  · rfl
  · split
    · rfl
    · split
      · rfl
      · dsimp only
        split <;> rfl

theorem history_recordHistory_some (now : Nat) (c : Bool) (t : MistakeType)
    (cd : Option Nat) (s : AppState) (sent : SentenceData)
    (h : currentSentence s = some sent) :
    (recordHistory now c t cd s).userProgress.history =
      s.userProgress.history ++
        [{ sentenceId := sent.id, correct := c
           mistakeType := if c then none else some t
           modifierCode := cd, timestamp := now }] := by
  unfold recordHistory
  rw [h]

/-! ### Projection-stability lemmas for the state operations -/

@[simp] theorem isPlaying_recordHistory (now : Nat) (c : Bool) (t : MistakeType)
    (cd : Option Nat) (s : AppState) :
    (recordHistory now c t cd s).isPlaying = s.isPlaying := by
  unfold recordHistory; split <;> rfl

@[simp] theorem currentLevel_recordHistory (now : Nat) (c : Bool) (t : MistakeType)
    (cd : Option Nat) (s : AppState) :
    (recordHistory now c t cd s).currentLevel = s.currentLevel := by
  unfold recordHistory; split <;> rfl

@[simp] theorem sessionSentences_recordHistory (now : Nat) (c : Bool) (t : MistakeType)
    (cd : Option Nat) (s : AppState) :
    (recordHistory now c t cd s).sessionSentences = s.sessionSentences := by
  unfold recordHistory; split <;> rfl

@[simp] theorem currentSentenceIdx_recordHistory (now : Nat) (c : Bool) (t : MistakeType)
    (cd : Option Nat) (s : AppState) :
    (recordHistory now c t cd s).currentSentenceIdx = s.currentSentenceIdx := by
  unfold recordHistory; split <;> rfl

@[simp] theorem step_recordHistory (now : Nat) (c : Bool) (t : MistakeType)
    (cd : Option Nat) (s : AppState) :
    (recordHistory now c t cd s).step = s.step := by
  unfold recordHistory; split <;> rfl

@[simp] theorem currentModIndex_recordHistory (now : Nat) (c : Bool) (t : MistakeType)
    (cd : Option Nat) (s : AppState) :
    (recordHistory now c t cd s).currentModIndex = s.currentModIndex := by
  unfold recordHistory; split <;> rfl

@[simp] theorem cleanedModifiers_recordHistory (now : Nat) (c : Bool) (t : MistakeType)
    (cd : Option Nat) (s : AppState) :
    (recordHistory now c t cd s).cleanedModifiers = s.cleanedModifiers := by
  unfold recordHistory; split <;> rfl

@[simp] theorem selectionStart_recordHistory (now : Nat) (c : Bool) (t : MistakeType)
    (cd : Option Nat) (s : AppState) :
    (recordHistory now c t cd s).selectionStart = s.selectionStart := by
  unfold recordHistory; split <;> rfl

@[simp] theorem selectionEnd_recordHistory (now : Nat) (c : Bool) (t : MistakeType)
    (cd : Option Nat) (s : AppState) :
    (recordHistory now c t cd s).selectionEnd = s.selectionEnd := by
  unfold recordHistory; split <;> rfl

@[simp] theorem mistakes_recordHistory (now : Nat) (c : Bool) (t : MistakeType)
    (cd : Option Nat) (s : AppState) :
    (recordHistory now c t cd s).mistakes = s.mistakes := by
  unfold recordHistory; split <;> rfl

@[simp] theorem tutorialStep_recordHistory (now : Nat) (c : Bool) (t : MistakeType)
    (cd : Option Nat) (s : AppState) :
    (recordHistory now c t cd s).tutorialStep = s.tutorialStep := by
  unfold recordHistory; split <;> rfl

@[simp] theorem diagnosisStats_recordHistory (now : Nat) (c : Bool) (t : MistakeType)
    (cd : Option Nat) (s : AppState) :
    (recordHistory now c t cd s).diagnosisStats = s.diagnosisStats := by
  unfold recordHistory; split <;> rfl

@[simp] theorem isPlaying_addToLandfill (now : Nat) (s : AppState) :
    (addToLandfill now s).isPlaying = s.isPlaying := by
  unfold addToLandfill; split <;> rfl

@[simp] theorem currentLevel_addToLandfill (now : Nat) (s : AppState) :
    (addToLandfill now s).currentLevel = s.currentLevel := by
  unfold addToLandfill; split <;> rfl

@[simp] theorem sessionSentences_addToLandfill (now : Nat) (s : AppState) :
    (addToLandfill now s).sessionSentences = s.sessionSentences := by
  unfold addToLandfill; split <;> rfl

@[simp] theorem currentSentenceIdx_addToLandfill (now : Nat) (s : AppState) :
    (addToLandfill now s).currentSentenceIdx = s.currentSentenceIdx := by
  unfold addToLandfill; split <;> rfl

@[simp] theorem step_addToLandfill (now : Nat) (s : AppState) :
    (addToLandfill now s).step = s.step := by
  unfold addToLandfill; split <;> rfl

@[simp] theorem currentModIndex_addToLandfill (now : Nat) (s : AppState) :
    (addToLandfill now s).currentModIndex = s.currentModIndex := by
  unfold addToLandfill; split <;> rfl

@[simp] theorem cleanedModifiers_addToLandfill (now : Nat) (s : AppState) :
    (addToLandfill now s).cleanedModifiers = s.cleanedModifiers := by
  unfold addToLandfill; split <;> rfl

@[simp] theorem selectionStart_addToLandfill (now : Nat) (s : AppState) :
    (addToLandfill now s).selectionStart = s.selectionStart := by
  unfold addToLandfill; split <;> rfl

@[simp] theorem selectionEnd_addToLandfill (now : Nat) (s : AppState) :
    (addToLandfill now s).selectionEnd = s.selectionEnd := by
  unfold addToLandfill; split <;> rfl

@[simp] theorem mistakes_addToLandfill (now : Nat) (s : AppState) :
    (addToLandfill now s).mistakes = s.mistakes := by
  unfold addToLandfill; split <;> rfl

@[simp] theorem tutorialStep_addToLandfill (now : Nat) (s : AppState) :
    (addToLandfill now s).tutorialStep = s.tutorialStep := by
  unfold addToLandfill; split <;> rfl

@[simp] theorem diagnosisStats_addToLandfill (now : Nat) (s : AppState) :
    (addToLandfill now s).diagnosisStats = s.diagnosisStats := by
  unfold addToLandfill; split <;> rfl

@[simp] theorem isPlaying_handleSuccessInLandfill (s : AppState) :
    (handleSuccessInLandfill s).isPlaying = s.isPlaying := by
  unfold handleSuccessInLandfill
  split
  · rfl
  · split
    · rfl
    · split
      · rfl
      · dsimp only
        split <;> rfl

@[simp] theorem currentLevel_handleSuccessInLandfill (s : AppState) :
    (handleSuccessInLandfill s).currentLevel = s.currentLevel := by
  unfold handleSuccessInLandfill
  split
  · rfl
  · split
    · rfl
    · split
      · rfl
      · dsimp only
        split <;> rfl

@[simp] theorem sessionSentences_handleSuccessInLandfill (s : AppState) :
    (handleSuccessInLandfill s).sessionSentences = s.sessionSentences := by
  unfold handleSuccessInLandfill
  split
  · rfl
  · split
    · rfl
    · split
      · rfl
      · dsimp only
        split <;> rfl

@[simp] theorem currentSentenceIdx_handleSuccessInLandfill (s : AppState) :
    (handleSuccessInLandfill s).currentSentenceIdx = s.currentSentenceIdx := by
  unfold handleSuccessInLandfill
  split
  · rfl
  · split
    · rfl
    · split
      · rfl
      · dsimp only
        split <;> rfl

@[simp] theorem step_handleSuccessInLandfill (s : AppState) :
    (handleSuccessInLandfill s).step = s.step := by
  unfold handleSuccessInLandfill
  split
  · rfl
  · split
    · rfl
    · split
      · rfl
      · dsimp only
        split <;> rfl

@[simp] theorem currentModIndex_handleSuccessInLandfill (s : AppState) :
    (handleSuccessInLandfill s).currentModIndex = s.currentModIndex := by
  unfold handleSuccessInLandfill
  split
  · rfl
  · split
    · rfl
    · split
      · rfl
      · dsimp only
        split <;> rfl

@[simp] theorem cleanedModifiers_handleSuccessInLandfill (s : AppState) :
    (handleSuccessInLandfill s).cleanedModifiers = s.cleanedModifiers := by
  unfold handleSuccessInLandfill
  split
  · rfl
  · split
    · rfl
    · split
      · rfl
      · dsimp only
        split <;> rfl

@[simp] theorem selectionStart_handleSuccessInLandfill (s : AppState) :
    (handleSuccessInLandfill s).selectionStart = s.selectionStart := by
  unfold handleSuccessInLandfill
  split
  · rfl
  · split
    · rfl
    · split
      · rfl
      · dsimp only
        split <;> rfl

@[simp] theorem selectionEnd_handleSuccessInLandfill (s : AppState) :
    (handleSuccessInLandfill s).selectionEnd = s.selectionEnd := by
  unfold handleSuccessInLandfill
  split
  · rfl
  · split
    · rfl
    · split
      · rfl
      · dsimp only
        split <;> rfl

@[simp] theorem mistakes_handleSuccessInLandfill (s : AppState) :
    (handleSuccessInLandfill s).mistakes = s.mistakes := by
  unfold handleSuccessInLandfill
  split
  · rfl
  · split
    · rfl
    · split
      · rfl
      · dsimp only
        split <;> rfl

@[simp] theorem tutorialStep_handleSuccessInLandfill (s : AppState) :
    (handleSuccessInLandfill s).tutorialStep = s.tutorialStep := by
  unfold handleSuccessInLandfill
  split
  · rfl
  · split
    · rfl
    · split
      · rfl
      · dsimp only
        split <;> rfl

@[simp] theorem diagnosisStats_handleSuccessInLandfill (s : AppState) :
    (handleSuccessInLandfill s).diagnosisStats = s.diagnosisStats := by
  unfold handleSuccessInLandfill
  split
  · rfl
  · split
    · rfl
    · split
      · rfl
      · dsimp only
        split <;> rfl

@[simp] theorem exp_resetCombo (s : AppState) :
    (resetCombo s).userProgress.exp = s.userProgress.exp := rfl

@[simp] theorem combo_resetCombo (s : AppState) :
    (resetCombo s).userProgress.combo = 0 := rfl

@[simp] theorem landfill_resetCombo (s : AppState) :
    (resetCombo s).userProgress.landfill = s.userProgress.landfill := rfl

@[simp] theorem history_resetCombo (s : AppState) :
    (resetCombo s).userProgress.history = s.userProgress.history := rfl

@[simp] theorem isPlaying_resetCombo (s : AppState) :
    (resetCombo s).isPlaying = s.isPlaying := rfl

@[simp] theorem currentLevel_resetCombo (s : AppState) :
    (resetCombo s).currentLevel = s.currentLevel := rfl

@[simp] theorem sessionSentences_resetCombo (s : AppState) :
    (resetCombo s).sessionSentences = s.sessionSentences := rfl

@[simp] theorem currentSentenceIdx_resetCombo (s : AppState) :
    (resetCombo s).currentSentenceIdx = s.currentSentenceIdx := rfl

@[simp] theorem step_resetCombo (s : AppState) :
    (resetCombo s).step = s.step := rfl

@[simp] theorem currentModIndex_resetCombo (s : AppState) :
    (resetCombo s).currentModIndex = s.currentModIndex := rfl

@[simp] theorem cleanedModifiers_resetCombo (s : AppState) :
    (resetCombo s).cleanedModifiers = s.cleanedModifiers := rfl

@[simp] theorem selectionStart_resetCombo (s : AppState) :
    (resetCombo s).selectionStart = s.selectionStart := rfl

@[simp] theorem selectionEnd_resetCombo (s : AppState) :
    (resetCombo s).selectionEnd = s.selectionEnd := rfl

@[simp] theorem mistakes_resetCombo (s : AppState) :
    (resetCombo s).mistakes = s.mistakes := rfl

@[simp] theorem tutorialStep_resetCombo (s : AppState) :
    (resetCombo s).tutorialStep = s.tutorialStep := rfl

@[simp] theorem diagnosisStats_resetCombo (s : AppState) :
    (resetCombo s).diagnosisStats = s.diagnosisStats := rfl


@[simp] theorem currentSentence_recordHistory (now : Nat) (c : Bool)
    (t : MistakeType) (cd : Option Nat) (s : AppState) :
    currentSentence (recordHistory now c t cd s) = currentSentence s := by
  unfold currentSentence
  rw [sessionSentences_recordHistory, currentSentenceIdx_recordHistory]

@[simp] theorem currentSentence_addToLandfill (now : Nat) (s : AppState) :
    currentSentence (addToLandfill now s) = currentSentence s := by
  unfold currentSentence
  rw [sessionSentences_addToLandfill, currentSentenceIdx_addToLandfill]

@[simp] theorem currentSentence_resetCombo (s : AppState) :
    currentSentence (resetCombo s) = currentSentence s := rfl

@[simp] theorem activeModifier_recordHistory (now : Nat) (c : Bool)
    (t : MistakeType) (cd : Option Nat) (s : AppState) :
    activeModifier (recordHistory now c t cd s) = activeModifier s := by
  unfold activeModifier
  rw [currentSentence_recordHistory, currentModIndex_recordHistory]

@[simp] theorem activeModifier_addToLandfill (now : Nat) (s : AppState) :
    activeModifier (addToLandfill now s) = activeModifier s := by
  unfold activeModifier
  rw [currentSentence_addToLandfill, currentModIndex_addToLandfill]

@[simp] theorem activeModifier_resetCombo (s : AppState) :
    activeModifier (resetCombo s) = activeModifier s := rfl

@[simp] theorem currentSentence_mk (a : Bool) (b : SessionLevel)
    (c : List SentenceData) (d : Nat) (e : GameStep) (f : Nat) (g : List Nat)
    (h h2 : Option Nat) (j : Mistakes) (k : TutorialStep) (l : UserProgress)
    (m : Option DiagnosisStats) :
    currentSentence ⟨a, b, c, d, e, f, g, h, h2, j, k, l, m⟩ = c.get? d := rfl

@[simp] theorem activeModifier_mk (a : Bool) (b : SessionLevel)
    (c : List SentenceData) (d : Nat) (e : GameStep) (f : Nat) (g : List Nat)
    (h h2 : Option Nat) (j : Mistakes) (k : TutorialStep) (l : UserProgress)
    (m : Option DiagnosisStats) :
    activeModifier ⟨a, b, c, d, e, f, g, h, h2, j, k, l, m⟩ =
      (match c.get? d with
       | some sent => sent.modifiers.get? f
       | none => none) := rfl

@[simp] theorem combo_rangeMissUpdate (now : Nat) (s : AppState) :
    (rangeMissUpdate now s).userProgress.combo = 0 := by
  unfold rangeMissUpdate
  dsimp only
  split <;> simp

@[simp] theorem exp_rangeMissUpdate (now : Nat) (s : AppState) :
    (rangeMissUpdate now s).userProgress.exp = s.userProgress.exp := by
  unfold rangeMissUpdate
  dsimp only
  split <;> simp

/-! ### Counterexample and scenario theorems on the concrete fixtures -/

/-- C1 (counterexample): with the per-sentence range-mistake counter already
at 3 (one commit has fired, `wrongCount = 1`), a fourth range miss fires a
further Landfill commit — `wrongCount` becomes 2 and `lastAttempt` is
restamped — refuting that a commit occurs exactly when the counter reaches 3
and never on later misses. -/
theorem landfillCommitRepeatsAfterThreshold :
    afterThreeRangeMissesState.mistakes.range = 3 ∧
    isRangeMiss afterThreeRangeMissesState (.tokenClick 0) = true ∧
    lfLookup afterThreeRangeMissesState.userProgress.landfill "s1" =
      some { sentenceId := "s1", wrongCode := none, wrongCount := 1
             consecutiveCorrect := 0, lastAttempt := 0 } ∧
    lfLookup (stepEvent 7 (.tokenClick 0)
        afterThreeRangeMissesState).userProgress.landfill "s1" =
      some { sentenceId := "s1", wrongCode := none, wrongCount := 2
             consecutiveCorrect := 0, lastAttempt := 7 } := by
  refine ⟨rfl, rfl, rfl, rfl⟩

/-- C2 (counterexample): in landfill mode, a pass containing a recorded
mistake (one sub-threshold range miss) and ending with a correct verb-find
still increments the entry's consecutive-correct count from 0 to 1 —
refuting that the count is incremented only on mistake-free passes. -/
theorem dirtyPassIncrementsConsecutive :
    lfReviewState.userProgress.history = [] ∧
    ((runEvents 0 dirtyPassEvents lfReviewState).userProgress.history.filter
        (fun h => !h.correct)).length = 1 ∧
    lfLookup (runEvents 0 dirtyPassEvents lfReviewState).userProgress.landfill "s1" =
      some { sentenceId := "s1", wrongCode := none, wrongCount := 1
             consecutiveCorrect := 1, lastAttempt := 0 } := by
  refine ⟨rfl, rfl, rfl⟩

/-- C2 (amended): in landfill mode a fully-correct pass increments the
entry's consecutive-correct count to 1, and a second consecutive
fully-correct pass removes the entry from the Landfill map. -/
theorem twoCleanPassesRemoveEntry :
    lfLookup (runEvents 0 cleanPassEvents lfReviewState).userProgress.landfill "s1" =
      some { sentenceId := "s1", wrongCode := none, wrongCount := 1
             consecutiveCorrect := 1, lastAttempt := 0 } ∧
    lfLookup (runEvents 0 (cleanPassEvents ++ [Event.nextClick] ++ cleanPassEvents)
        lfReviewState).userProgress.landfill "s1" = none := by
  refine ⟨rfl, rfl⟩

/-- C3 (counterexample): outside landfill mode, a correct `FIND_VERB` answer
for a sentence with an existing Landfill entry leaves the entry's
consecutive-correct count unchanged (the award still fires), refuting the
unconditional increment. -/
theorem nonLandfillModeSkipsIncrement :
    beginnerFindVerbState.currentLevel = SessionLevel.diff Difficulty.beginner ∧
    isCorrectVerbAnswer beginnerFindVerbState (.tokenClick 3) = true ∧
    lfLookup beginnerFindVerbState.userProgress.landfill "s1" =
      some { sentenceId := "s1", wrongCode := none, wrongCount := 1
             consecutiveCorrect := 0, lastAttempt := 0 } ∧
    lfLookup (stepEvent 0 (.tokenClick 3)
        beginnerFindVerbState).userProgress.landfill "s1" =
      some { sentenceId := "s1", wrongCode := none, wrongCount := 1
             consecutiveCorrect := 0, lastAttempt := 0 } ∧
    (stepEvent 0 (.tokenClick 3) beginnerFindVerbState).userProgress.exp =
      beginnerFindVerbState.userProgress.exp + 10 := by
  refine ⟨rfl, rfl, rfl, rfl, rfl⟩

/-- C6 (counterexample): starting a landfill session when the filtered pool
has fewer than 5 sentences replaces the queue with the generated batch —
the filtered landfill sentence "s1" is available but absent from the
resulting session queue, refuting "retained and supplemented". -/
theorem startLevelLandfillDiscardsFiltered :
    mockPool.filter (fun sd =>
        (lfReviewState.userProgress.landfill.map (·.1)).contains sd.id) =
      [exSentence] ∧
    (startLevel mockPool genBatch SessionLevel.landfill
        lfReviewState).sessionSentences = genBatch ∧
    ((startLevel mockPool genBatch SessionLevel.landfill
        lfReviewState).sessionSentences.map (·.id)).contains "s1" = false := by
  refine ⟨rfl, rfl, rfl⟩

/-- C7 (counterexample): a session whose only mistake is an incorrect
main-verb attempt (no code-tagged mistakes) yields a null weakest modifier
code, yet the feedback is the type-code-practice message, not the mastery
message — refuting "null and the feedback indicates mastery". -/
theorem weakestNullFeedbackNotMastery :
    (verbMissSessionState.userProgress.history.filter
        (fun h => !h.correct && truthyCode h.modifierCode)) = [] ∧
    ((calculateDiagnosis verbMissSessionState).diagnosisStats).map
        (·.weakestModifierCode) = some none ∧
    ((calculateDiagnosis verbMissSessionState).diagnosisStats).map
        (·.feedback) = some codeFeedback ∧
    codeFeedback ≠ masteryFeedback := by
  refine ⟨rfl, rfl, rfl, by decide⟩

/-- C9 (counterexample): a completed two-click range answer whose normalized
span matches the active modifier appends no history record, refuting
"appends exactly one History Record" for every completed range answer. -/
theorem correctRangeMatchRecordsNothing :
    isAnswerAttempt rangeMatchState (.tokenClick 2) = true ∧
    isCorrectRangeMatch rangeMatchState 2 = true ∧
    (stepEvent 0 (.tokenClick 2) rangeMatchState).userProgress.history =
      rangeMatchState.userProgress.history ∧
    (stepEvent 0 (.tokenClick 2) rangeMatchState).step =
      GameStep.MODIFIER_TYPE := by
  refine ⟨rfl, rfl, rfl, rfl⟩


/-- C4: in every input state, any incorrect answer resets the combo to 0;
the combo is incremented (by 1) exactly by a correct `FIND_VERB` answer; and
no other event — including every intermediate correct step and the
auto-transitions — changes it. -/
theorem comboPolicy (now : Nat) (e : Event) (s : AppState)
    (hTut : s.tutorialStep = TutorialStep.OFF) :
    (stepEvent now e s).userProgress.combo =
      if isIncorrectAnswer s e = true then 0
      else if isCorrectVerbAnswer s e = true then s.userProgress.combo + 1
      else s.userProgress.combo := by
  cases e with
  | questionAdvance =>
      simp [stepEvent, isIncorrectAnswer, isCorrectVerbAnswer, questionAutoAdvance]
      split <;> rfl
  | nextClick =>
      simp [stepEvent, isIncorrectAnswer, isCorrectVerbAnswer, nextSentence,
        resetSentenceState, calculateDiagnosis]
      split_ifs <;> rfl
  | keypadSelect c =>
      by_cases hstep : s.step = GameStep.MODIFIER_TYPE
      · cases hcs : currentSentence s with
        | none =>
            have ham : activeModifier s = none := by
              unfold activeModifier; rw [hcs]
            simp [stepEvent, hstep, handleKeypadSelect, hcs, ham,
              isIncorrectAnswer, isCorrectVerbAnswer]
        | some sent =>
            cases ham : activeModifier s with
            | none =>
                simp [stepEvent, hstep, handleKeypadSelect, hcs, ham,
                  isIncorrectAnswer, isCorrectVerbAnswer]
            | some m =>
                by_cases hc : c = m.typeCode
                · simp [stepEvent, hstep, handleKeypadSelect, hcs, ham, hc, hTut,
                    isIncorrectAnswer, isCorrectVerbAnswer]
                  split <;> simp
                · simp [stepEvent, hstep, handleKeypadSelect, hcs, ham, hc, hTut,
                    isIncorrectAnswer, isCorrectVerbAnswer]
                  split <;> simp
      · simp [stepEvent, hstep, isIncorrectAnswer, isCorrectVerbAnswer]
  | tokenClick i =>
      by_cases hreach : tokenReachesHandler s i = true
      · cases hcs : currentSentence s with
        | none =>
            exfalso
            unfold tokenReachesHandler at hreach
            rw [hcs] at hreach
            simp at hreach
        | some sent =>
            simp only [stepEvent]
            rw [hreach]
            simp only [if_true]
            unfold handleTokenClick
            rw [hcs]
            cases hstep : s.step with
            | HEAD_NOUN =>
                by_cases hi : i = sent.headNounIndex
                · simp [hTut, hstep, hi, hcs, hreach,
                    isIncorrectAnswer, isCorrectVerbAnswer]
                · simp [hTut, hstep, hi, hcs, hreach,
                    isIncorrectAnswer, isCorrectVerbAnswer]
            | MODIFIER_RANGE =>
                cases hsel : s.selectionStart with
                | none =>
                    simp [hTut, hstep, hsel, hcs, hreach,
                      isIncorrectAnswer, isCorrectVerbAnswer]
                | some a =>
                    have hcs2 : s.sessionSentences[s.currentSentenceIdx]? = some sent := by
                      simpa [currentSentence] using hcs
                    cases ham : activeModifier s with
                    | none =>
                        have ham2 : sent.modifiers[s.currentModIndex]? = none := by
                          unfold activeModifier at ham
                          rw [hcs] at ham
                          simpa using ham
                        simp [hTut, hstep, hsel, hcs, hcs2, hreach, ham, ham2,
                          isIncorrectAnswer, isCorrectVerbAnswer, isCorrectRangeMatch]
                    | some m =>
                        have ham2 : sent.modifiers[s.currentModIndex]? = some m := by
                          unfold activeModifier at ham
                          rw [hcs] at ham
                          simpa using ham
                        by_cases hmatch : min a i = m.startIndex ∧ max a i = m.endIndex
                        · simp [hTut, hstep, hsel, hcs, hcs2, hreach, ham, ham2, hmatch,
                            isIncorrectAnswer, isCorrectVerbAnswer, isCorrectRangeMatch]
                        · simp [hTut, hstep, hsel, hcs, hcs2, hreach, ham, ham2, hmatch,
                            isIncorrectAnswer, isCorrectVerbAnswer, isCorrectRangeMatch]
                          exact (if_pos (not_and_or.mp hmatch)).symm
            | FIND_VERB =>
                by_cases hi : i = sent.mainVerbIndex
                · subst hi
                  simp [hTut, hstep, hcs, hreach,
                    isIncorrectAnswer, isCorrectVerbAnswer]
                · simp [hTut, hstep, hi, hcs, hreach,
                    isIncorrectAnswer, isCorrectVerbAnswer]
            | LOADING =>
                simp [hTut, hstep, hcs, hreach, isIncorrectAnswer, isCorrectVerbAnswer]
            | QUESTION =>
                simp [hTut, hstep, hcs, hreach, isIncorrectAnswer, isCorrectVerbAnswer]
            | MODIFIER_TYPE =>
                simp [hTut, hstep, hcs, hreach, isIncorrectAnswer, isCorrectVerbAnswer]
            | RESULT =>
                simp [hTut, hstep, hcs, hreach, isIncorrectAnswer, isCorrectVerbAnswer]
            | DIAGNOSIS =>
                simp [hTut, hstep, hcs, hreach, isIncorrectAnswer, isCorrectVerbAnswer]
      · have hreach2 : tokenReachesHandler s i = false := by
          cases h : tokenReachesHandler s i
          · rfl
          · exact absurd h hreach
        cases hcs : currentSentence s <;>
          simp [stepEvent, hreach2, hcs, isIncorrectAnswer, isCorrectVerbAnswer]

/-- Witness for `comboPolicy` at a concrete input. -/
theorem comboPolicyWitness :
    (stepEvent 0 (.tokenClick 1) lfReviewState).userProgress.combo =
      if isIncorrectAnswer lfReviewState (.tokenClick 1) = true then 0
      else if isCorrectVerbAnswer lfReviewState (.tokenClick 1) = true then
        lfReviewState.userProgress.combo + 1
      else lfReviewState.userProgress.combo :=
  comboPolicy 0 (.tokenClick 1) lfReviewState rfl

/-- C5: a correct `FIND_VERB` answer awards exactly 10 + 2 x (the combo value
immediately before the increment) experience and increments the combo by 1
in the same update. -/
theorem expAwardPolicy (now i : Nat) (s : AppState) (sent : SentenceData)
    (hTut : s.tutorialStep = TutorialStep.OFF)
    (hstep : s.step = GameStep.FIND_VERB)
    (hcs : currentSentence s = some sent)
    (hi : i = sent.mainVerbIndex)
    (hclean : isCleanedToken sent s.cleanedModifiers i = false) :
    (stepEvent now (.tokenClick i) s).userProgress.exp =
      s.userProgress.exp + (10 + 2 * s.userProgress.combo) ∧
    (stepEvent now (.tokenClick i) s).userProgress.combo =
      s.userProgress.combo + 1 := by
  have hreach : tokenReachesHandler s i = true := by
    unfold tokenReachesHandler
    rw [hcs]
    simp [hclean, hstep]
  simp only [stepEvent]
  rw [hreach]
  simp only [if_true]
  unfold handleTokenClick
  rw [hcs]
  simp [hTut, hstep, hi]
  omega

/-- Witness for `expAwardPolicy` at a concrete input. -/
theorem expAwardPolicyWitness :
    (stepEvent 0 (.tokenClick 3) landfillFindVerbState).userProgress.exp =
      landfillFindVerbState.userProgress.exp +
        (10 + 2 * landfillFindVerbState.userProgress.combo) ∧
    (stepEvent 0 (.tokenClick 3) landfillFindVerbState).userProgress.combo =
      landfillFindVerbState.userProgress.combo + 1 :=
  expAwardPolicy 0 3 landfillFindVerbState exSentence rfl rfl rfl rfl rfl


theorem historyLen_recordHistory_some (now : Nat) (c : Bool) (t : MistakeType)
    (cd : Option Nat) (s : AppState) (sent : SentenceData)
    (h : currentSentence s = some sent) :
    (recordHistory now c t cd s).userProgress.history.length =
      s.userProgress.history.length + 1 := by
  rw [history_recordHistory_some now c t cd s sent h]
  simp

theorem historyLen_rangeMissUpdate (now : Nat) (s : AppState) (sent : SentenceData)
    (hcs : currentSentence s = some sent) :
    (rangeMissUpdate now s).userProgress.history.length =
      s.userProgress.history.length + 1 := by
  have hcs2 : s.sessionSentences[s.currentSentenceIdx]? = some sent := by
    simpa [currentSentence] using hcs
  unfold rangeMissUpdate
  dsimp only
  split
  · rw [historyLen_recordHistory_some _ _ _ _ _ sent (by simp [hcs, hcs2])]
    simp
  · rw [historyLen_recordHistory_some _ _ _ _ _ sent (by simp [hcs, hcs2])]
    simp

/-- C9 (amended): every user-facing answer attempt appends exactly one
History Record — except a completed two-click range answer whose normalized
span matches the active modifier, which appends none — and auto-transitions
(the `QUESTION` delay, next-sentence advance) append none. -/
theorem historyAppendPolicy (now : Nat) (e : Event) (s : AppState)
    (hTut : s.tutorialStep = TutorialStep.OFF) :
    (stepEvent now e s).userProgress.history.length =
      s.userProgress.history.length +
        (if (isAnswerAttempt s e && !isRangeMatchEvent s e) = true then 1 else 0) := by
  cases e with
  | questionAdvance =>
      simp [stepEvent, isAnswerAttempt, isRangeMatchEvent, questionAutoAdvance]
      split <;> rfl
  | nextClick =>
      simp [stepEvent, isAnswerAttempt, isRangeMatchEvent, nextSentence,
        resetSentenceState, calculateDiagnosis]
      split_ifs <;> rfl
  | keypadSelect c =>
      by_cases hstep : s.step = GameStep.MODIFIER_TYPE
      · cases hcs : currentSentence s with
        | none =>
            have ham : activeModifier s = none := by
              unfold activeModifier; rw [hcs]
            simp [stepEvent, hstep, handleKeypadSelect, hcs, ham,
              isAnswerAttempt, isRangeMatchEvent]
        | some sent =>
            cases ham : activeModifier s with
            | none =>
                simp [stepEvent, hstep, handleKeypadSelect, hcs, ham,
                  isAnswerAttempt, isRangeMatchEvent]
            | some m =>
                have hcs2 : s.sessionSentences[s.currentSentenceIdx]? = some sent := by
                  simpa [currentSentence] using hcs
                by_cases hc : c = m.typeCode
                · simp only [stepEvent, hstep, if_true, handleKeypadSelect]
                  rw [hcs, ham]
                  simp only [hTut, hc]
                  simp [hTut, isAnswerAttempt, isRangeMatchEvent, hstep, ham]
                  split
                  · rw [historyLen_recordHistory_some _ _ _ _ _ sent (by simp [hcs, hcs2])]
                  · rw [historyLen_recordHistory_some _ _ _ _ _ sent (by simp [hcs, hcs2])]
                · simp only [stepEvent, hstep, if_true, handleKeypadSelect]
                  rw [hcs, ham]
                  simp only [hTut, hc]
                  simp [hTut, hc, isAnswerAttempt, isRangeMatchEvent, hstep, ham]
                  split
                  · rw [historyLen_recordHistory_some _ _ _ _ _ sent (by simp [hcs, hcs2])]
                    simp
                  · rw [historyLen_recordHistory_some _ _ _ _ _ sent (by simp [hcs, hcs2])]
                    simp
      · simp [stepEvent, hstep, isAnswerAttempt, isRangeMatchEvent]
  | tokenClick i =>
      by_cases hreach : tokenReachesHandler s i = true
      · cases hcs : currentSentence s with
        | none =>
            exfalso
            unfold tokenReachesHandler at hreach
            rw [hcs] at hreach
            simp at hreach
        | some sent =>
            have hcs2 : s.sessionSentences[s.currentSentenceIdx]? = some sent := by
              simpa [currentSentence] using hcs
            simp only [stepEvent]
            rw [hreach]
            simp only [if_true]
            unfold handleTokenClick
            rw [hcs]
            cases hstep : s.step with
            | HEAD_NOUN =>
                by_cases hi : i = sent.headNounIndex
                · subst hi
                  simp [hTut, hstep, hcs, hreach, isAnswerAttempt,
                    isRangeMatchEvent, isCorrectRangeMatch]
                  rw [historyLen_recordHistory_some _ _ _ _ _ sent (by simp [hcs, hcs2])]
                · simp [hTut, hstep, hi, hcs, hreach, isAnswerAttempt,
                    isRangeMatchEvent, isCorrectRangeMatch]
                  rw [historyLen_recordHistory_some _ _ _ _ _ sent (by simp [hcs, hcs2])]
                  simp
            | MODIFIER_RANGE =>
                cases hsel : s.selectionStart with
                | none =>
                    simp [hTut, hstep, hsel, hcs, hreach, isAnswerAttempt,
                      isRangeMatchEvent, isCorrectRangeMatch]
                | some a =>
                    cases ham : activeModifier s with
                    | none =>
                        have ham2 : sent.modifiers[s.currentModIndex]? = none := by
                          unfold activeModifier at ham
                          rw [hcs] at ham
                          simpa using ham
                        simp [hTut, hstep, hsel, hcs, hcs2, hreach, ham, ham2,
                          isAnswerAttempt, isRangeMatchEvent, isCorrectRangeMatch]
                        rw [historyLen_rangeMissUpdate _ _ sent (by simp [hcs, hcs2])]
                    | some m =>
                        have ham2 : sent.modifiers[s.currentModIndex]? = some m := by
                          unfold activeModifier at ham
                          rw [hcs] at ham
                          simpa using ham
                        by_cases hmatch : min a i = m.startIndex ∧ max a i = m.endIndex
                        · simp [hTut, hstep, hsel, hcs, hcs2, hreach, ham, ham2, hmatch,
                            isAnswerAttempt, isRangeMatchEvent, isCorrectRangeMatch]
                        · simp [hTut, hstep, hsel, hcs, hcs2, hreach, ham, ham2, hmatch,
                            isAnswerAttempt, isRangeMatchEvent, isCorrectRangeMatch]
                          rw [historyLen_rangeMissUpdate _ _ sent (by simp [hcs, hcs2])]
                          simp [not_and_or.mp hmatch]
            | FIND_VERB =>
                by_cases hi : i = sent.mainVerbIndex
                · subst hi
                  simp [hTut, hstep, hcs, hreach, isAnswerAttempt,
                    isRangeMatchEvent, isCorrectRangeMatch]
                  rw [historyLen_recordHistory_some _ _ _ _ _ sent (by simp [hcs, hcs2])]
                · simp [hTut, hstep, hi, hcs, hreach, isAnswerAttempt,
                    isRangeMatchEvent, isCorrectRangeMatch]
                  rw [historyLen_recordHistory_some _ _ _ _ _ sent (by simp [hcs, hcs2])]
                  simp
            | LOADING =>
                simp [hTut, hstep, hcs, hreach, isAnswerAttempt, isRangeMatchEvent]
            | QUESTION =>
                simp [hTut, hstep, hcs, hreach, isAnswerAttempt, isRangeMatchEvent]
            | MODIFIER_TYPE =>
                simp [hTut, hstep, hcs, hreach, isAnswerAttempt, isRangeMatchEvent]
            | RESULT =>
                simp [hTut, hstep, hcs, hreach, isAnswerAttempt, isRangeMatchEvent]
            | DIAGNOSIS =>
                simp [hTut, hstep, hcs, hreach, isAnswerAttempt, isRangeMatchEvent]
      · have hreach2 : tokenReachesHandler s i = false := by
          cases h : tokenReachesHandler s i
          · rfl
          · exact absurd h hreach
        cases hcs : currentSentence s <;>
          simp [stepEvent, hreach2, hcs, isAnswerAttempt, isRangeMatchEvent]

/-- Witness for `historyAppendPolicy` at a concrete input. -/
theorem historyAppendPolicyWitness :
    (stepEvent 0 (.tokenClick 2) rangeMatchState).userProgress.history.length =
      rangeMatchState.userProgress.history.length +
        (if (isAnswerAttempt rangeMatchState (.tokenClick 2) &&
              !isRangeMatchEvent rangeMatchState (.tokenClick 2)) = true
         then 1 else 0) :=
  historyAppendPolicy 0 (.tokenClick 2) rangeMatchState rfl


theorem exp_handleKeypadSelect (now c : Nat) (s : AppState) :
    (handleKeypadSelect now c s).userProgress.exp = s.userProgress.exp := by
  unfold handleKeypadSelect
  split
  · dsimp only
    split_ifs <;> simp
  · rfl

theorem exp_handleTokenClick (now i : Nat) (s : AppState) :
    (handleTokenClick now i s).userProgress.exp = s.userProgress.exp ∨
    (handleTokenClick now i s).userProgress.exp =
      s.userProgress.exp + 10 + s.userProgress.combo * 2 := by
  unfold handleTokenClick
  cases hcs : currentSentence s with
  | none => left ; rfl
  | some sent =>
      dsimp only
      by_cases ht1 : s.tutorialStep = TutorialStep.FIND_NOUN ∧ i ≠ sent.headNounIndex
      · rw [if_pos ht1] ; left ; rfl
      · rw [if_neg ht1]
        by_cases ht2 : s.tutorialStep = TutorialStep.FIND_NOUN ∧ i = sent.headNounIndex
        · rw [if_pos ht2]
          dsimp only
          rw [if_neg (by simp :
            ¬(TutorialStep.QUESTION_POPUP = TutorialStep.FIND_VERB ∧
              i ≠ sent.mainVerbIndex))]
          by_cases hn : s.step = GameStep.HEAD_NOUN
          · rw [if_pos hn]
            left ; split_ifs <;> simp
          · rw [if_neg hn]
            by_cases hmr : s.step = GameStep.MODIFIER_RANGE
            · rw [if_pos hmr]
              left
              cases hsel : s.selectionStart with
              | none => simp
              | some a =>
                  dsimp only
                  split <;> first
                    | (split_ifs <;> simp)
                    | simp
            · rw [if_neg hmr]
              by_cases hfv : s.step = GameStep.FIND_VERB
              · rw [if_pos hfv]
                by_cases hv : i = sent.mainVerbIndex
                · rw [if_pos hv]
                  right ; simp
                · rw [if_neg hv]
                  left ; simp
              · rw [if_neg hfv] ; left ; rfl
        · rw [if_neg ht2]
          by_cases ht3 : s.tutorialStep = TutorialStep.FIND_VERB ∧ i ≠ sent.mainVerbIndex
          · rw [if_pos ht3] ; left ; rfl
          · rw [if_neg ht3]
            by_cases hn : s.step = GameStep.HEAD_NOUN
            · rw [if_pos hn]
              left ; split_ifs <;> simp
            · rw [if_neg hn]
              by_cases hmr : s.step = GameStep.MODIFIER_RANGE
              · rw [if_pos hmr]
                left
                cases hsel : s.selectionStart with
                | none => simp
                | some a =>
                    dsimp only
                    split <;> first
                      | (split_ifs <;> simp)
                      | simp
              · rw [if_neg hmr]
                by_cases hfv : s.step = GameStep.FIND_VERB
                · rw [if_pos hfv]
                  by_cases hv : i = sent.mainVerbIndex
                  · rw [if_pos hv]
                    right ; split_ifs <;> simp
                  · rw [if_neg hv]
                    left ; simp
                · rw [if_neg hfv] ; left ; rfl

/-- C10: the experience total is monotonically non-decreasing — every event
either leaves `exp` unchanged or adds the award 10 + 2 x combo; restarting a
session (`startLevel`) never changes it; and it is initialized to 0. -/
theorem expMonotone :
    (∀ (now : Nat) (e : Event) (s : AppState),
        (stepEvent now e s).userProgress.exp = s.userProgress.exp ∨
        (stepEvent now e s).userProgress.exp =
          s.userProgress.exp + (10 + 2 * s.userProgress.combo)) ∧
    (∀ (mock gen : List SentenceData) (level : SessionLevel) (s : AppState),
        (startLevel mock gen level s).userProgress.exp = s.userProgress.exp) ∧
    initialUserProgress.exp = 0 := by
  refine ⟨?_, ?_, rfl⟩
  · intro now e s
    cases e with
    | tokenClick i =>
        simp only [stepEvent]
        split
        · rcases exp_handleTokenClick now i s with h | h
          · left ; exact h
          · right ; omega
        · left ; rfl
    | keypadSelect c =>
        simp only [stepEvent]
        split
        · left ; exact exp_handleKeypadSelect now c s
        · left ; rfl
    | questionAdvance =>
        left
        simp only [stepEvent]
        unfold questionAutoAdvance
        split <;> rfl
    | nextClick =>
        left
        simp only [stepEvent]
        unfold nextSentence resetSentenceState calculateDiagnosis
        repeat' split
        all_goals rfl
  · intro mock gen level s
    unfold startLevel resetSentenceState
    cases level with
    | diff d => dsimp only
    | landfill => dsimp only


/-- C6 (amended): starting a landfill session sets the queue to the static
pool filtered to currently-landfilled identifiers; if fewer than 5 such
sentences are available the queue is instead the freshly generated batch
(the filtered sentences are discarded, not retained); the cursor and the
per-sentence state are reset and the user progress is untouched. -/
theorem startLevelLandfillQueue (mock gen : List SentenceData) (s : AppState) :
    (startLevel mock gen SessionLevel.landfill s).sessionSentences =
      (if (mock.filter (fun sd =>
            (s.userProgress.landfill.map (·.1)).contains sd.id)).length < 5
       then gen
       else mock.filter (fun sd =>
            (s.userProgress.landfill.map (·.1)).contains sd.id)) ∧
    (startLevel mock gen SessionLevel.landfill s).currentSentenceIdx = 0 ∧
    (startLevel mock gen SessionLevel.landfill s).step = GameStep.HEAD_NOUN ∧
    (startLevel mock gen SessionLevel.landfill s).currentLevel =
      SessionLevel.landfill ∧
    (startLevel mock gen SessionLevel.landfill s).mistakes =
      { range := 0, code := 0 } ∧
    (startLevel mock gen SessionLevel.landfill s).userProgress =
      s.userProgress := by
  unfold startLevel resetSentenceState
  dsimp only
  exact ⟨rfl, rfl, rfl, rfl, rfl, rfl⟩

/-- C8: the diagnosis accuracy equals corrects / attempts x 100 over the
history records whose sentence identifier belongs to the session's
identifier set; with 0 attempts it is exactly 0 (never an undefined value),
and it always lies between 0 and 100. -/
theorem accuracyPolicy (s : AppState) :
    diagnosisAccuracy s =
      ((((sessionAttempts s).filter (·.correct)).length : ℚ) /
        (((sessionAttempts s).length : ℚ))) * 100 ∧
    ((sessionAttempts s).length = 0 → diagnosisAccuracy s = 0) ∧
    0 ≤ diagnosisAccuracy s ∧ diagnosisAccuracy s ≤ 100 := by
  have hle : ((sessionAttempts s).filter (·.correct)).length ≤
      (sessionAttempts s).length := List.length_filter_le _ _
  have hmain : diagnosisAccuracy s =
      ((((sessionAttempts s).filter (·.correct)).length : ℚ) /
        (((sessionAttempts s).length : ℚ))) * 100 := by
    unfold diagnosisAccuracy calculateDiagnosis sessionAttempts
    dsimp only
    split_ifs with h
    · rfl
    · have h0 : (s.userProgress.history.filter
          (fun h => (s.sessionSentences.map (·.id)).contains h.sentenceId)).length = 0 := by
        omega
      rw [h0]
      norm_num
  refine ⟨hmain, ?_, ?_, ?_⟩
  · intro h0
    rw [hmain, h0]
    norm_num
  · rw [hmain]
    positivity
  · rw [hmain]
    rcases Nat.eq_zero_or_pos (sessionAttempts s).length with hd | hd
    · rw [hd]
      norm_num
    · have hd2 : (0 : ℚ) < ((sessionAttempts s).length : ℚ) := by
        exact_mod_cast hd
      rw [div_mul_eq_mul_div, div_le_iff₀ hd2]
      have hc : (((sessionAttempts s).filter (·.correct)).length : ℚ) ≤
          ((sessionAttempts s).length : ℚ) := by
        exact_mod_cast hle
      nlinarith

/-- Witness for `accuracyPolicy` at a concrete input. -/
theorem accuracyPolicyWitness :
    (sessionAttempts emptySessionState).length = 0 ∧
    diagnosisAccuracy emptySessionState = 0 :=
  ⟨rfl, (accuracyPolicy emptySessionState).2.1 rfl⟩


theorem foldPick_spec (cnt : Nat → Nat) :
    ∀ (l : List Nat), List.Pairwise (· < ·) l →
      ∀ (m : Nat) (w : Option Nat),
      (let res := l.foldl
          (fun acc c => if cnt c > acc.1 then (cnt c, some c) else acc) (m, w)
       (res = (m, w) ∧ ∀ x ∈ l, cnt x ≤ m) ∨
       (∃ c, c ∈ l ∧ res.2 = some c ∧ res.1 = cnt c ∧ m < cnt c ∧
         (∀ x ∈ l, cnt x ≤ cnt c) ∧
         (∀ x ∈ l, x < c → cnt x < cnt c))) := by
  intro l
  induction l with
  | nil =>
      intro _ m w
      left
      exact ⟨rfl, by simp⟩
  | cons c0 rest ih =>
      intro hsort m w
      have hsort' : List.Pairwise (· < ·) rest := hsort.of_cons
      have hlt : ∀ x ∈ rest, c0 < x := by
        intro x hx
        exact (List.pairwise_cons.mp hsort).1 x hx
      by_cases hc0 : cnt c0 > m
      · rcases ih hsort' (cnt c0) (some c0) with ⟨hres, hbound⟩ | ⟨c, hc, h2, h1, hm, hbound, htie⟩
        · right
          refine ⟨c0, List.mem_cons_self _ _, ?_, ?_, hc0, ?_, ?_⟩
          · simp [List.foldl_cons, if_pos hc0, hres]
          · simp [List.foldl_cons, if_pos hc0, hres]
          · intro x hx
            rcases List.mem_cons.mp hx with rfl | hx
            · exact le_refl _
            · exact hbound x hx
          · intro x hx hxc
            rcases List.mem_cons.mp hx with rfl | hx
            · omega
            · exact absurd hxc (by have := hlt x hx ; omega)
        · right
          refine ⟨c, List.mem_cons_of_mem _ hc, ?_, ?_, by omega, ?_, ?_⟩
          · simpa [List.foldl_cons, if_pos hc0] using h2
          · simpa [List.foldl_cons, if_pos hc0] using h1
          · intro x hx
            rcases List.mem_cons.mp hx with rfl | hx
            · omega
            · exact hbound x hx
          · intro x hx hxc
            rcases List.mem_cons.mp hx with rfl | hx
            · omega
            · exact htie x hx hxc
      · rcases ih hsort' m w with ⟨hres, hbound⟩ | ⟨c, hc, h2, h1, hm, hbound, htie⟩
        · left
          refine ⟨?_, ?_⟩
          · simpa [List.foldl_cons, if_neg hc0] using hres
          · intro x hx
            rcases List.mem_cons.mp hx with rfl | hx
            · omega
            · exact hbound x hx
        · right
          refine ⟨c, List.mem_cons_of_mem _ hc, ?_, ?_, hm, ?_, ?_⟩
          · simpa [List.foldl_cons, if_neg hc0] using h2
          · simpa [List.foldl_cons, if_neg hc0] using h1
          · intro x hx
            rcases List.mem_cons.mp hx with rfl | hx
            · omega
            · exact hbound x hx
          · intro x hx hxc
            rcases List.mem_cons.mp hx with rfl | hx
            · omega
            · exact htie x hx hxc

theorem le_maxCode (incorrects : List HistoryRecord) :
    ∀ h ∈ incorrects, ∀ c, h.modifierCode = some c → c ≤ maxCode incorrects := by
  have key : ∀ (l : List HistoryRecord) (acc : Nat),
      acc ≤ l.foldl
        (fun m h => match h.modifierCode with | some c => max m c | none => m) acc ∧
      (∀ h ∈ l, ∀ c, h.modifierCode = some c →
        c ≤ l.foldl
          (fun m h => match h.modifierCode with | some c => max m c | none => m) acc) := by
    intro l
    induction l with
    | nil => intro acc ; exact ⟨le_refl _, by simp⟩
    | cons h0 rest ih =>
        intro acc
        constructor
        · refine le_trans ?_ (ih _).1
          cases hmc : h0.modifierCode <;> simp [hmc]
        · intro h hh c hc
          rcases List.mem_cons.mp hh with rfl | hh
          · refine le_trans ?_ (ih _).1
            simp [hc]
          · exact (ih _).2 h hh c hc
  intro h hh c hc
  exact (key incorrects 0).2 h hh c hc

theorem mem_presentCodes (incorrects : List HistoryRecord) (c : Nat) :
    c ∈ presentCodes incorrects ↔ 0 < codeCount incorrects c := by
  unfold presentCodes
  rw [List.mem_filter, List.mem_range]
  constructor
  · rintro ⟨_, hpos⟩
    simpa using hpos
  · intro hpos
    refine ⟨?_, by simpa using hpos⟩
    unfold codeCount at hpos
    have hne : incorrects.filter (fun h => h.modifierCode == some c) ≠ [] := by
      intro hnil
      rw [hnil] at hpos
      simp at hpos
    rcases List.exists_mem_of_ne_nil _ hne with ⟨h, hh⟩
    rcases List.mem_filter.mp hh with ⟨hmem, hbeq⟩
    have hc : h.modifierCode = some c := by simpa using hbeq
    have := le_maxCode incorrects h hmem c hc
    omega

theorem pairwise_presentCodes (incorrects : List HistoryRecord) :
    List.Pairwise (· < ·) (presentCodes incorrects) := by
  unfold presentCodes
  exact List.Pairwise.filter _ (List.pairwise_lt_range _)

theorem weakestCodeOf_spec (incorrects : List HistoryRecord) :
    (weakestCodeOf incorrects = none ↔
      ∀ c, codeCount incorrects c = 0) ∧
    (∀ c, weakestCodeOf incorrects = some c →
      0 < codeCount incorrects c ∧
      (∀ d, codeCount incorrects d ≤ codeCount incorrects c) ∧
      (∀ d, d < c → codeCount incorrects d < codeCount incorrects c)) := by
  have hfold := foldPick_spec (codeCount incorrects) (presentCodes incorrects)
    (pairwise_presentCodes incorrects) 0 none
  rcases hfold with ⟨hres, hbound⟩ | ⟨c, hc, h2, h1, hm, hbound, htie⟩
  · constructor
    · unfold weakestCodeOf
      rw [hres]
      simp only [true_iff]
      intro c
      by_cases hpos : 0 < codeCount incorrects c
      · have := hbound c ((mem_presentCodes incorrects c).mpr hpos)
        omega
      · omega
    · intro c hc
      unfold weakestCodeOf at hc
      rw [hres] at hc
      simp at hc
  · have hcpos : 0 < codeCount incorrects c :=
      (mem_presentCodes incorrects c).mp hc
    constructor
    · unfold weakestCodeOf
      rw [h2]
      simp only [reduceCtorEq, false_iff, not_forall]
      exact ⟨c, by omega⟩
    · intro d hd
      unfold weakestCodeOf at hd
      rw [h2] at hd
      have hdc : d = c := by simpa using hd.symm
      subst hdc
      refine ⟨hcpos, ?_, ?_⟩
      · intro x
        by_cases hx : 0 < codeCount incorrects x
        · exact hbound x ((mem_presentCodes incorrects x).mpr hx)
        · omega
      · intro x hxd
        by_cases hx : 0 < codeCount incorrects x
        · exact htie x ((mem_presentCodes incorrects x).mpr hx) hxd
        · omega

/-- C7 (amended): the diagnosis weakest modifier code is null exactly when
the session has no incorrect code-tagged records; when present it is a code
with strictly the highest mistake tally among those records, every
earlier-iterated (numerically smaller) code having a strictly smaller tally;
and the feedback is the mastery message exactly when the session has no
incorrect records at all (code-tagged or not). -/
theorem weakestCodeCharacterization (s : AppState) :
    (diagnosisWeakestCode s = none ↔ sessionIncorrects s = []) ∧
    (∀ c, diagnosisWeakestCode s = some c →
      0 < codeCount (sessionIncorrects s) c ∧
      (∀ d, codeCount (sessionIncorrects s) d ≤
        codeCount (sessionIncorrects s) c) ∧
      (∀ d, d < c → codeCount (sessionIncorrects s) d <
        codeCount (sessionIncorrects s) c)) ∧
    (diagnosisFeedback s = masteryFeedback ↔
      (sessionAttempts s).filter (fun h => !h.correct) = []) := by
  have hwc : diagnosisWeakestCode s = weakestCodeOf (sessionIncorrects s) := rfl
  have hfb : diagnosisFeedback s =
      analyzeDiagnosis s.userProgress.history (s.sessionSentences.map (·.id)) := rfl
  obtain ⟨hnone, hsome⟩ := weakestCodeOf_spec (sessionIncorrects s)
  refine ⟨?_, ?_, ?_⟩
  · rw [hwc, hnone]
    constructor
    · intro hall
      by_contra hne
      rcases List.exists_mem_of_ne_nil _ hne with ⟨h, hmem⟩
      have hpred := (List.mem_filter.mp hmem).2
      have htr : truthyCode h.modifierCode = true :=
        (Bool.and_eq_true .. |>.mp hpred).2
      cases hmc : h.modifierCode with
      | none => rw [hmc] at htr ; simp [truthyCode] at htr
      | some c =>
          have hcmem : h ∈ (sessionIncorrects s).filter
              (fun h => h.modifierCode == some c) :=
            List.mem_filter.mpr ⟨hmem, by simp [hmc]⟩
          have hpos : 0 < codeCount (sessionIncorrects s) c := by
            unfold codeCount
            exact List.length_pos.mpr (List.ne_nil_of_mem hcmem)
          have := hall c
          omega
    · intro hnil
      intro c
      unfold codeCount
      rw [hnil]
      rfl
  · intro c hc
    exact hsome c (by rw [← hwc] ; exact hc)
  · rw [hfb]
    unfold analyzeDiagnosis
    have hlist : s.userProgress.history.filter (fun h =>
        (s.sessionSentences.map (·.id)).contains h.sentenceId && !h.correct) =
        (sessionAttempts s).filter (fun h => !h.correct) := by
      unfold sessionAttempts
      rw [List.filter_filter]
      exact List.filter_congr (fun x _ => by rw [Bool.and_comm])
    rw [hlist]
    by_cases hlen : ((sessionAttempts s).filter (fun h => !h.correct)).length = 0
    · rw [if_pos hlen]
      constructor
      · intro _ ; exact List.length_eq_zero.mp hlen
      · intro _ ; rfl
    · rw [if_neg hlen]
      constructor
      · intro hfeq
        dsimp only at hfeq
        split_ifs at hfeq <;> exact absurd hfeq (by decide)
      · intro hnil
        exact absurd (by rw [hnil] ; rfl) hlen

/-- Witness for `weakestCodeCharacterization` at a concrete input. -/
theorem weakestCodeCharacterizationWitness :
    sessionIncorrects verbMissSessionState = [] :=
  (weakestCodeCharacterization verbMissSessionState).1.mp rfl


theorem landfill_addToLandfill_some (now : Nat) (s : AppState) (sent : SentenceData)
    (hcs : currentSentence s = some sent) :
    (addToLandfill now s).userProgress.landfill =
      lfSet s.userProgress.landfill sent.id
        (commitItem s.userProgress.landfill sent.id now) := by
  unfold addToLandfill commitItem
  rw [hcs]

theorem not_commitObserved_self (lf : Landfill) (id : String) (now : Nat) :
    ¬ commitObserved lf lf id now := by
  unfold commitObserved commitItem
  cases hlk : lfLookup lf id with
  | none => simp [hlk]
  | some item =>
      simp only [Option.getD_some]
      intro h
      have h2 := Option.some.inj h
      have h3 : item.wrongCount = item.wrongCount + 1 := by
        simpa using congrArg LandfillItem.wrongCount h2
      omega

theorem not_commitObserved_erase (lf : Landfill) (id : String) (now : Nat) :
    ¬ commitObserved lf (lfErase lf id) id now := by
  unfold commitObserved
  rw [lfLookup_lfErase_self]
  simp

theorem commitObserved_lfSet (lf : Landfill) (id : String) (now : Nat) :
    commitObserved lf (lfSet lf id (commitItem lf id now)) id now := by
  unfold commitObserved
  rw [lfLookup_lfSet_self]

theorem not_commitObserved_success (lf : Landfill) (id : String) (now : Nat)
    (item : LandfillItem) (hlk : lfLookup lf id = some item) :
    ¬ commitObserved lf
      (lfSet lf id { item with consecutiveCorrect := item.consecutiveCorrect + 1 })
      id now := by
  unfold commitObserved commitItem
  rw [lfLookup_lfSet_self]
  dsimp only
  rw [hlk]
  intro h
  have h2 := Option.some.inj h
  have h3 : item.wrongCount = item.wrongCount + 1 := by
    simpa using congrArg LandfillItem.wrongCount h2
  omega

theorem landfill_rangeMissUpdate (now : Nat) (s : AppState) (sent : SentenceData)
    (hcs : currentSentence s = some sent) :
    (rangeMissUpdate now s).userProgress.landfill =
      (if s.mistakes.range + 1 ≥ 3
       then lfSet s.userProgress.landfill sent.id
        (commitItem s.userProgress.landfill sent.id now)
       else s.userProgress.landfill) := by
  have hcs2 : s.sessionSentences[s.currentSentenceIdx]? = some sent := by
    simpa [currentSentence] using hcs
  unfold rangeMissUpdate
  dsimp only [resetCombo]
  split_ifs with h
  · rw [landfill_recordHistory]
    dsimp only
    rw [landfill_addToLandfill_some _ _ sent (by simp [hcs, hcs2])]
  · rw [landfill_recordHistory]

theorem commitCharUnchanged (lf : Landfill) (id : String) (now : Nat)
    (P : Prop) (hP : ¬ P) : commitObserved lf lf id now ↔ P :=
  iff_of_false (not_commitObserved_self lf id now) hP

theorem lfLookup_lfSet_ne (lf : Landfill) (id0 id : String) (item : LandfillItem)
    (h : ¬ id0 = id) : lfLookup (lfSet lf id0 item) id = lfLookup lf id := by
  induction lf with
  | nil => simp [lfSet, lfLookup, h]
  | cons p rest ih =>
      by_cases hp : p.1 = id0
      · simp [lfSet, lfLookup, hp, h, ih]
      · simp [lfSet, lfLookup, hp, ih]

theorem lfLookup_lfErase_ne (lf : Landfill) (id0 id : String)
    (h : ¬ id0 = id) : lfLookup (lfErase lf id0) id = lfLookup lf id := by
  induction lf with
  | nil => simp [lfErase, lfLookup]
  | cons p rest ih =>
      by_cases hp : p.1 = id0
      · simp [lfErase, lfLookup, hp, h, ih]
      · simp [lfErase, lfLookup, hp, ih]

theorem not_commit_lookup_eq (lf lf2 : Landfill) (id : String) (now : Nat)
    (h : lfLookup lf2 id = lfLookup lf id) : ¬ commitObserved lf lf2 id now := by
  unfold commitObserved commitItem
  rw [h]
  cases hlk : lfLookup lf id with
  | none => simp
  | some item =>
      simp only [Option.getD_some]
      intro heq
      have h2 := Option.some.inj heq
      have h3 : item.wrongCount = item.wrongCount + 1 := by
        simpa using congrArg LandfillItem.wrongCount h2
      omega

theorem not_commitObserved_erase2 (before lf : Landfill) (id : String) (now : Nat) :
    ¬ commitObserved before (lfErase lf id) id now := by
  unfold commitObserved
  rw [lfLookup_lfErase_self]
  simp

theorem not_commitObserved_success2 (before lf : Landfill) (id : String) (now : Nat)
    (item : LandfillItem) (hlk : lfLookup before id = some item) :
    ¬ commitObserved before
      (lfSet lf id { item with consecutiveCorrect := item.consecutiveCorrect + 1 })
      id now := by
  unfold commitObserved commitItem
  rw [lfLookup_lfSet_self]
  dsimp only
  rw [hlk]
  intro h
  have h2 := Option.some.inj h
  have h3 : item.wrongCount = item.wrongCount + 1 := by
    simpa using congrArg LandfillItem.wrongCount h2
  omega

theorem not_commitObserved_handleSuccess (s : AppState) (before : Landfill)
    (id : String) (now : Nat)
    (h : lfLookup before id = lfLookup s.userProgress.landfill id) :
    ¬ commitObserved before
      (handleSuccessInLandfill s).userProgress.landfill id now := by
  unfold handleSuccessInLandfill
  split
  · exact not_commit_lookup_eq _ _ _ _ h.symm
  · split
    · exact not_commit_lookup_eq _ _ _ _ h.symm
    · rename_i sent heq
      split
      · exact not_commit_lookup_eq _ _ _ _ h.symm
      · rename_i item hlk
        dsimp only
        split_ifs with hc2
        · by_cases hid : sent.id = id
          · subst hid
            exact not_commitObserved_erase2 _ _ _ _
          · exact not_commit_lookup_eq _ _ _ _
              ((lfLookup_lfErase_ne _ _ _ hid).trans h.symm)
        · by_cases hid : sent.id = id
          · subst hid
            exact not_commitObserved_success2 _ _ _ now _ (by rw [h, hlk])
          · exact not_commit_lookup_eq _ _ _ _
              ((lfLookup_lfSet_ne _ _ _ _ hid).trans h.symm)

/-- C1 (amended): a landfill commit for the current sentence -- its entry's
`wrongCount` incremented, `consecutiveCorrect` reset to zero and
`lastAttempt` stamped with the current time -- is observed at an event
exactly when the event is a range miss whose resulting range-mistake
counter reaches at least 3, or a code miss whose resulting code-mistake
counter reaches at least 2; so the commit fires on the threshold miss and
again on every further qualifying miss, and never otherwise. -/
theorem landfillCommitCharacterization (now : Nat) (e : Event) (s : AppState)
    (sent : SentenceData)
    (hTut : s.tutorialStep = TutorialStep.OFF)
    (hcs : currentSentence s = some sent) :
    (commitObserved s.userProgress.landfill
        (stepEvent now e s).userProgress.landfill sent.id now ↔
      ((isRangeMiss s e = true ∧ s.mistakes.range + 1 ≥ 3) ∨
       (isCodeMiss s e = true ∧ s.mistakes.code + 1 ≥ 2))) := by
  have hcs2 : s.sessionSentences[s.currentSentenceIdx]? = some sent := by
    simpa [currentSentence] using hcs
  cases e with
  | questionAdvance =>
      have hland : (stepEvent now Event.questionAdvance s).userProgress.landfill =
          s.userProgress.landfill := by
        simp only [stepEvent]
        unfold questionAutoAdvance
        split <;> rfl
      rw [hland]
      refine commitCharUnchanged _ _ _ _ ?_
      rintro (⟨h1, _⟩ | ⟨h1, _⟩) <;> simp [isRangeMiss, isCodeMiss] at h1
  | nextClick =>
      have hland : (stepEvent now Event.nextClick s).userProgress.landfill =
          s.userProgress.landfill := by
        simp only [stepEvent]
        split
        · unfold nextSentence resetSentenceState calculateDiagnosis
          repeat' split
          all_goals rfl
        · rfl
      rw [hland]
      refine commitCharUnchanged _ _ _ _ ?_
      rintro (⟨h1, _⟩ | ⟨h1, _⟩) <;> simp [isRangeMiss, isCodeMiss] at h1
  | keypadSelect c =>
      by_cases hstep : s.step = GameStep.MODIFIER_TYPE
      · cases ham : activeModifier s with
        | none =>
            have hland : (stepEvent now (Event.keypadSelect c) s).userProgress.landfill =
                s.userProgress.landfill := by
              simp only [stepEvent]
              rw [if_pos hstep]
              unfold handleKeypadSelect
              simp [hcs, ham]
            rw [hland]
            refine commitCharUnchanged _ _ _ _ ?_
            rintro (⟨h1, _⟩ | ⟨h1, _⟩)
            · simp [isRangeMiss] at h1
            · simp [isCodeMiss, hstep, ham] at h1
        | some m =>
            by_cases hc : c = m.typeCode
            · have hland : (stepEvent now (Event.keypadSelect c) s).userProgress.landfill =
                  s.userProgress.landfill := by
                simp only [stepEvent]
                rw [if_pos hstep]
                unfold handleKeypadSelect
                simp [hcs, ham, hc, hTut]
                split_ifs <;> simp
              rw [hland]
              refine commitCharUnchanged _ _ _ _ ?_
              rintro (⟨h1, _⟩ | ⟨h1, _⟩)
              · simp [isRangeMiss] at h1
              · simp [isCodeMiss, hstep, ham, hc] at h1
            · have hland : (stepEvent now (Event.keypadSelect c) s).userProgress.landfill =
                  (if s.mistakes.code + 1 ≥ 2
                   then lfSet s.userProgress.landfill sent.id
                     (commitItem s.userProgress.landfill sent.id now)
                   else s.userProgress.landfill) := by
                simp only [stepEvent]
                rw [if_pos hstep]
                unfold handleKeypadSelect
                simp [hcs, ham, hc, hTut]
                split_ifs with hthr
                · rw [landfill_addToLandfill_some _ _ sent (by simp [hcs, hcs2])]
                  simp
                · simp
              rw [hland]
              by_cases hthr : s.mistakes.code + 1 ≥ 2
              · rw [if_pos hthr]
                exact iff_of_true (commitObserved_lfSet _ _ _)
                  (Or.inr ⟨by simp [isCodeMiss, hstep, ham, hc], hthr⟩)
              · rw [if_neg hthr]
                refine commitCharUnchanged _ _ _ _ ?_
                rintro (⟨h1, _⟩ | ⟨_, h2⟩)
                · simp [isRangeMiss] at h1
                · exact hthr h2
      · have hland : (stepEvent now (Event.keypadSelect c) s).userProgress.landfill =
            s.userProgress.landfill := by
          simp only [stepEvent]
          rw [if_neg hstep]
        rw [hland]
        refine commitCharUnchanged _ _ _ _ ?_
        rintro (⟨h1, _⟩ | ⟨h1, _⟩)
        · simp [isRangeMiss] at h1
        · simp [isCodeMiss, hstep] at h1
  | tokenClick i =>
      by_cases hreach : tokenReachesHandler s i = true
      · cases hstep : s.step with
        | HEAD_NOUN =>
            have hland : (stepEvent now (Event.tokenClick i) s).userProgress.landfill =
                s.userProgress.landfill := by
              simp only [stepEvent]
              rw [hreach]
              simp only [if_true]
              unfold handleTokenClick
              rw [hcs]
              by_cases hi : i = sent.headNounIndex
              · simp [hTut, hstep, hi]
              · simp [hTut, hstep, hi]
            rw [hland]
            refine commitCharUnchanged _ _ _ _ ?_
            rintro (⟨h1, _⟩ | ⟨h1, _⟩)
            · simp [isRangeMiss, hstep] at h1
            · simp [isCodeMiss, hstep] at h1
        | MODIFIER_RANGE =>
            cases hsel : s.selectionStart with
            | none =>
                have hland : (stepEvent now (Event.tokenClick i) s).userProgress.landfill =
                    s.userProgress.landfill := by
                  simp only [stepEvent]
                  rw [hreach]
                  simp only [if_true]
                  unfold handleTokenClick
                  rw [hcs]
                  simp [hTut, hstep, hsel]
                rw [hland]
                refine commitCharUnchanged _ _ _ _ ?_
                rintro (⟨h1, _⟩ | ⟨h1, _⟩)
                · simp [isRangeMiss, hsel] at h1
                · simp [isCodeMiss, hstep] at h1
            | some a =>
                cases ham : activeModifier s with
                | none =>
                    have ham3 : sent.modifiers[s.currentModIndex]? = none := by
                      unfold activeModifier at ham
                      rw [hcs] at ham
                      simpa using ham
                    have hland : (stepEvent now (Event.tokenClick i) s).userProgress.landfill =
                        (if s.mistakes.range + 1 ≥ 3
                         then lfSet s.userProgress.landfill sent.id
                           (commitItem s.userProgress.landfill sent.id now)
                         else s.userProgress.landfill) := by
                      simp only [stepEvent]
                      rw [hreach]
                      simp only [if_true]
                      unfold handleTokenClick
                      rw [hcs]
                      simp [hTut, hstep, hsel, hcs2, ham3]
                      rw [landfill_rangeMissUpdate _ _ sent (by simp [hcs, hcs2])]
                      simp
                    rw [hland]
                    by_cases hthr : s.mistakes.range + 1 ≥ 3
                    · rw [if_pos hthr]
                      exact iff_of_true (commitObserved_lfSet _ _ _)
                        (Or.inl ⟨by simp [isRangeMiss, hstep, hsel, hreach,
                          isCorrectRangeMatch, ham], hthr⟩)
                    · rw [if_neg hthr]
                      refine commitCharUnchanged _ _ _ _ ?_
                      rintro (⟨_, h2⟩ | ⟨h1, _⟩)
                      · exact hthr h2
                      · simp [isCodeMiss, hstep] at h1
                | some m =>
                    have ham3 : sent.modifiers[s.currentModIndex]? = some m := by
                      unfold activeModifier at ham
                      rw [hcs] at ham
                      simpa using ham
                    by_cases hmatch : min a i = m.startIndex ∧ max a i = m.endIndex
                    · have hland : (stepEvent now (Event.tokenClick i) s).userProgress.landfill =
                          s.userProgress.landfill := by
                        simp only [stepEvent]
                        rw [hreach]
                        simp only [if_true]
                        unfold handleTokenClick
                        rw [hcs]
                        simp [hTut, hstep, hsel, hcs2, ham3, hmatch]
                      rw [hland]
                      refine commitCharUnchanged _ _ _ _ ?_
                      rintro (⟨h1, _⟩ | ⟨h1, _⟩)
                      · simp [isRangeMiss, hstep, hsel, isCorrectRangeMatch,
                          ham, hmatch.1, hmatch.2] at h1
                      · simp [isCodeMiss, hstep] at h1
                    · have hland : (stepEvent now (Event.tokenClick i) s).userProgress.landfill =
                          (if s.mistakes.range + 1 ≥ 3
                           then lfSet s.userProgress.landfill sent.id
                             (commitItem s.userProgress.landfill sent.id now)
                           else s.userProgress.landfill) := by
                        simp only [stepEvent]
                        rw [hreach]
                        simp only [if_true]
                        unfold handleTokenClick
                        rw [hcs]
                        simp [hTut, hstep, hsel, hcs2, ham3, hmatch]
                        rw [landfill_rangeMissUpdate _ _ sent (by simp [hcs, hcs2])]
                        simp
                      rw [hland]
                      by_cases hthr : s.mistakes.range + 1 ≥ 3
                      · rw [if_pos hthr]
                        exact iff_of_true (commitObserved_lfSet _ _ _)
                          (Or.inl ⟨by
                            simp [isRangeMiss, hstep, hsel, hreach,
                              isCorrectRangeMatch, ham, hmatch]
                            exact not_and_or.mp hmatch, hthr⟩)
                      · rw [if_neg hthr]
                        refine commitCharUnchanged _ _ _ _ ?_
                        rintro (⟨_, h2⟩ | ⟨h1, _⟩)
                        · exact hthr h2
                        · simp [isCodeMiss, hstep] at h1
        | FIND_VERB =>
            by_cases hi : i = sent.mainVerbIndex
            · simp only [stepEvent]
              rw [hreach]
              simp only [if_true]
              unfold handleTokenClick
              rw [hcs]
              simp [hTut, hstep, hi]
              refine iff_of_false ?_ ?_
              · refine not_commitObserved_handleSuccess _ _ _ _ ?_
                simp
              · rintro (⟨h1, _⟩ | ⟨h1, _⟩)
                · simp [isRangeMiss, hstep] at h1
                · simp [isCodeMiss] at h1
            · have hland : (stepEvent now (Event.tokenClick i) s).userProgress.landfill =
                  s.userProgress.landfill := by
                simp only [stepEvent]
                rw [hreach]
                simp only [if_true]
                unfold handleTokenClick
                rw [hcs]
                simp [hTut, hstep, hi]
              rw [hland]
              refine commitCharUnchanged _ _ _ _ ?_
              rintro (⟨h1, _⟩ | ⟨h1, _⟩)
              · simp [isRangeMiss, hstep] at h1
              · simp [isCodeMiss, hstep] at h1
        | LOADING =>
            have hland : (stepEvent now (Event.tokenClick i) s).userProgress.landfill =
                s.userProgress.landfill := by
              simp only [stepEvent]
              rw [hreach]
              simp only [if_true]
              unfold handleTokenClick
              rw [hcs]
              simp [hTut, hstep]
            rw [hland]
            refine commitCharUnchanged _ _ _ _ ?_
            rintro (⟨h1, _⟩ | ⟨h1, _⟩)
            · simp [isRangeMiss, hstep] at h1
            · simp [isCodeMiss, hstep] at h1
        | QUESTION =>
            have hland : (stepEvent now (Event.tokenClick i) s).userProgress.landfill =
                s.userProgress.landfill := by
              simp only [stepEvent]
              rw [hreach]
              simp only [if_true]
              unfold handleTokenClick
              rw [hcs]
              simp [hTut, hstep]
            rw [hland]
            refine commitCharUnchanged _ _ _ _ ?_
            rintro (⟨h1, _⟩ | ⟨h1, _⟩)
            · simp [isRangeMiss, hstep] at h1
            · simp [isCodeMiss, hstep] at h1
        | MODIFIER_TYPE =>
            have hland : (stepEvent now (Event.tokenClick i) s).userProgress.landfill =
                s.userProgress.landfill := by
              simp only [stepEvent]
              rw [hreach]
              simp only [if_true]
              unfold handleTokenClick
              rw [hcs]
              simp [hTut, hstep]
            rw [hland]
            refine commitCharUnchanged _ _ _ _ ?_
            rintro (⟨h1, _⟩ | ⟨h1, _⟩)
            · simp [isRangeMiss, hstep] at h1
            · simp [isCodeMiss, hstep] at h1
        | RESULT =>
            have hland : (stepEvent now (Event.tokenClick i) s).userProgress.landfill =
                s.userProgress.landfill := by
              simp only [stepEvent]
              rw [hreach]
              simp only [if_true]
              unfold handleTokenClick
              rw [hcs]
              simp [hTut, hstep]
            rw [hland]
            refine commitCharUnchanged _ _ _ _ ?_
            rintro (⟨h1, _⟩ | ⟨h1, _⟩)
            · simp [isRangeMiss, hstep] at h1
            · simp [isCodeMiss, hstep] at h1
        | DIAGNOSIS =>
            have hland : (stepEvent now (Event.tokenClick i) s).userProgress.landfill =
                s.userProgress.landfill := by
              simp only [stepEvent]
              rw [hreach]
              simp only [if_true]
              unfold handleTokenClick
              rw [hcs]
              simp [hTut, hstep]
            rw [hland]
            refine commitCharUnchanged _ _ _ _ ?_
            rintro (⟨h1, _⟩ | ⟨h1, _⟩)
            · simp [isRangeMiss, hstep] at h1
            · simp [isCodeMiss, hstep] at h1
      · have hreach2 : tokenReachesHandler s i = false := by
          cases h : tokenReachesHandler s i
          · rfl
          · exact absurd h hreach
        have hland : (stepEvent now (Event.tokenClick i) s).userProgress.landfill =
            s.userProgress.landfill := by
          simp [stepEvent, hreach2]
        rw [hland]
        refine commitCharUnchanged _ _ _ _ ?_
        rintro (⟨h1, _⟩ | ⟨h1, _⟩)
        · simp [isRangeMiss, hreach2] at h1
        · simp [isCodeMiss] at h1

theorem lfLookup_handleSuccess (s : AppState) (sent : SentenceData)
    (item : LandfillItem)
    (hlv : s.currentLevel = SessionLevel.landfill)
    (hcs : currentSentence s = some sent)
    (hlk : lfLookup s.userProgress.landfill sent.id = some item) :
    lfLookup (handleSuccessInLandfill s).userProgress.landfill sent.id =
      (if item.consecutiveCorrect + 1 ≥ 2 then none
       else some { item with consecutiveCorrect := item.consecutiveCorrect + 1 }) := by
  unfold handleSuccessInLandfill
  rw [if_neg (show ¬ s.currentLevel ≠ SessionLevel.landfill by simp [hlv])]
  simp only [hcs, hlk]
  split_ifs with h2
  · exact lfLookup_lfErase_self _ _
  · exact lfLookup_lfSet_self _ _ _

theorem landfill_stepEvent_rangeMiss (now i : Nat) (s : AppState)
    (sent : SentenceData)
    (hTut : s.tutorialStep = TutorialStep.OFF)
    (hcs : currentSentence s = some sent)
    (h1 : isRangeMiss s (.tokenClick i) = true) :
    (stepEvent now (.tokenClick i) s).userProgress.landfill =
      (if s.mistakes.range + 1 ≥ 3
       then lfSet s.userProgress.landfill sent.id
         (commitItem s.userProgress.landfill sent.id now)
       else s.userProgress.landfill) := by
  have hcs2 : s.sessionSentences[s.currentSentenceIdx]? = some sent := by
    simpa [currentSentence] using hcs
  unfold isRangeMiss at h1
  simp only [Bool.and_eq_true, beq_iff_eq, Bool.not_eq_true'] at h1
  obtain ⟨⟨⟨hreach, hstep⟩, hselex⟩, hnmatch⟩ := h1
  obtain ⟨a, hsel⟩ := Option.isSome_iff_exists.mp hselex
  simp only [stepEvent]
  rw [hreach]
  simp only [if_true]
  unfold handleTokenClick
  rw [hcs]
  cases ham : activeModifier s with
  | none =>
      have ham3 : sent.modifiers[s.currentModIndex]? = none := by
        unfold activeModifier at ham
        rw [hcs] at ham
        simpa using ham
      simp [hTut, hstep, hsel, hcs2, ham3]
      rw [landfill_rangeMissUpdate _ _ sent (by simp [hcs, hcs2])]
      simp
  | some m =>
      have ham3 : sent.modifiers[s.currentModIndex]? = some m := by
        unfold activeModifier at ham
        rw [hcs] at ham
        simpa using ham
      have hmatch : ¬(min a i = m.startIndex ∧ max a i = m.endIndex) := by
        unfold isCorrectRangeMatch at hnmatch
        rw [hsel, ham] at hnmatch
        simp only [hstep] at hnmatch
        simpa using hnmatch
      simp [hTut, hstep, hsel, hcs2, ham3, hmatch]
      rw [landfill_rangeMissUpdate _ _ sent (by simp [hcs, hcs2])]
      simp

theorem landfill_stepEvent_codeMiss (now c : Nat) (s : AppState)
    (sent : SentenceData)
    (hTut : s.tutorialStep = TutorialStep.OFF)
    (hcs : currentSentence s = some sent)
    (h1 : isCodeMiss s (.keypadSelect c) = true) :
    (stepEvent now (.keypadSelect c) s).userProgress.landfill =
      (if s.mistakes.code + 1 ≥ 2
       then lfSet s.userProgress.landfill sent.id
         (commitItem s.userProgress.landfill sent.id now)
       else s.userProgress.landfill) := by
  have hcs2 : s.sessionSentences[s.currentSentenceIdx]? = some sent := by
    simpa [currentSentence] using hcs
  unfold isCodeMiss at h1
  simp only [Bool.and_eq_true, beq_iff_eq] at h1
  obtain ⟨hstep, hm⟩ := h1
  cases ham : activeModifier s with
  | none => rw [ham] at hm ; simp at hm
  | some m =>
      rw [ham] at hm
      have hc : ¬ c = m.typeCode := by simpa using hm
      simp only [stepEvent]
      rw [if_pos hstep]
      unfold handleKeypadSelect
      simp [hcs, ham, hc, hTut]
      split_ifs with hthr
      · rw [landfill_addToLandfill_some _ _ sent (by simp [hcs, hcs2])]
        simp
      · simp

/-- C3 (amended): in a landfill-review session (and only there), a correct
main-verb click on a sentence with a landfill entry increments the entry's
`consecutiveCorrect`, and removes the entry outright once the incremented
streak reaches 2; conversely any threshold-reaching miss rewrites the entry
with `wrongCount` incremented, the streak zeroed and `lastAttempt` stamped. -/
theorem landfillSuccessPolicy :
    (∀ (now i : Nat) (s : AppState) (sent : SentenceData) (item : LandfillItem),
      s.tutorialStep = TutorialStep.OFF →
      s.currentLevel = SessionLevel.landfill →
      s.step = GameStep.FIND_VERB →
      currentSentence s = some sent →
      i = sent.mainVerbIndex →
      isCleanedToken sent s.cleanedModifiers i = false →
      lfLookup s.userProgress.landfill sent.id = some item →
      ((item.consecutiveCorrect + 1 ≥ 2 →
          lfLookup (stepEvent now (.tokenClick i) s).userProgress.landfill
            sent.id = none) ∧
       (item.consecutiveCorrect + 1 < 2 →
          lfLookup (stepEvent now (.tokenClick i) s).userProgress.landfill
            sent.id =
          some { item with consecutiveCorrect := item.consecutiveCorrect + 1 }))) ∧
    (∀ (now : Nat) (e : Event) (s : AppState) (sent : SentenceData)
        (item : LandfillItem),
      s.tutorialStep = TutorialStep.OFF →
      currentSentence s = some sent →
      lfLookup s.userProgress.landfill sent.id = some item →
      ((isRangeMiss s e = true ∧ s.mistakes.range + 1 ≥ 3) ∨
       (isCodeMiss s e = true ∧ s.mistakes.code + 1 ≥ 2)) →
      lfLookup (stepEvent now e s).userProgress.landfill sent.id =
        some { item with wrongCount := item.wrongCount + 1
                         consecutiveCorrect := 0
                         lastAttempt := now }) := by
  constructor
  · intro now i s sent item hTut hlv hstep hcs hi hclean hlk
    have hcs2 : s.sessionSentences[s.currentSentenceIdx]? = some sent := by
      simpa [currentSentence] using hcs
    have hreach : tokenReachesHandler s i = true := by
      unfold tokenReachesHandler
      rw [hcs]
      simp [hclean, hstep]
    have hred : lfLookup (stepEvent now (.tokenClick i) s).userProgress.landfill
        sent.id =
        (if item.consecutiveCorrect + 1 ≥ 2 then none
         else some { item with consecutiveCorrect := item.consecutiveCorrect + 1 }) := by
      simp only [stepEvent]
      rw [hreach]
      simp only [if_true]
      unfold handleTokenClick
      rw [hcs]
      simp [hTut, hstep, hi]
      rw [lfLookup_handleSuccess _ sent item (by simp [hlv]) (by simp [hcs, hcs2])
        (by simp [hlk])]
      simp
    constructor
    · intro h2
      rw [hred, if_pos h2]
    · intro h2
      rw [hred, if_neg (by omega)]
  · intro now e s sent item hTut hcs hlk hcond
    rcases hcond with ⟨h1, h2⟩ | ⟨h1, h2⟩
    · cases e with
      | tokenClick i =>
          rw [landfill_stepEvent_rangeMiss now i s sent hTut hcs h1, if_pos h2,
            lfLookup_lfSet_self]
          unfold commitItem
          rw [hlk]
          rfl
      | keypadSelect c => simp [isRangeMiss] at h1
      | questionAdvance => simp [isRangeMiss] at h1
      | nextClick => simp [isRangeMiss] at h1
    · cases e with
      | keypadSelect c =>
          rw [landfill_stepEvent_codeMiss now c s sent hTut hcs h1, if_pos h2,
            lfLookup_lfSet_self]
          unfold commitItem
          rw [hlk]
          rfl
      | tokenClick i => simp [isCodeMiss] at h1
      | questionAdvance => simp [isCodeMiss] at h1
      | nextClick => simp [isCodeMiss] at h1

/-- Witness for `landfillCommitCharacterization` at a concrete state. -/
theorem landfillCommitCharacterizationWitness :
    commitObserved afterThreeRangeMissesState.userProgress.landfill
        (stepEvent 7 (.tokenClick 0)
          afterThreeRangeMissesState).userProgress.landfill
        exSentence.id 7 ↔
      ((isRangeMiss afterThreeRangeMissesState (.tokenClick 0) = true ∧
          afterThreeRangeMissesState.mistakes.range + 1 ≥ 3) ∨
       (isCodeMiss afterThreeRangeMissesState (.tokenClick 0) = true ∧
          afterThreeRangeMissesState.mistakes.code + 1 ≥ 2)) :=
  landfillCommitCharacterization 7 (.tokenClick 0) afterThreeRangeMissesState
    exSentence rfl rfl

/-- Witness for `landfillSuccessPolicy` at a concrete state. -/
theorem landfillSuccessPolicyWitness :
    lfLookup (stepEvent 9 (.tokenClick 3)
        landfillFindVerbState).userProgress.landfill exSentence.id =
      some { sentenceId := "s1", wrongCode := none, wrongCount := 1
             consecutiveCorrect := 1, lastAttempt := 0 } :=
  (landfillSuccessPolicy.1 9 3 landfillFindVerbState exSentence
      { sentenceId := "s1", wrongCode := none, wrongCount := 1
        consecutiveCorrect := 0, lastAttempt := 0 }
      rfl rfl rfl rfl rfl rfl rfl).2 (by decide)

end SentenceCleaner
